import Mathlib

/-!
Verification of the channel-curation engine (`src/channel_actions.py` and
`src/channel_manager.py`) against its natural-language specification.

The Python code is shallowly embedded: every remote call made through the
Slack client is modelled by an oracle value describing the remote service's
behaviour for that call (`Except PyExn _`: a successful structured response,
a structured `SlackApiError` carrying an error-code string, or an unexpected
exception), and each embedded function returns its Python return value
together with the list of remote calls, sleeps and prompts it performed
(`List Eff`).  Python `None`-or-value returns become `Option`, and an
exception propagating out of a function is an explicit `PyResult.exn` value.
String primitives (`str.lower`, `str.islower`, `str.isdigit`, `str.strip`)
are modelled over the basic-latin alphabet, which is the alphabet the
program's channel-name and action vocabulary lives in.
-/

namespace Curator

/-- Python's `str.lower`, modelled per character by `Char.toLower`
(basic-latin scope, which matches the action strings the program compares). -/
def pyLower (s : String) : String :=
  String.mk (s.data.map Char.toLower)

/-- Python's `str.islower` (basic-latin scope): at least one cased character
and no uppercase character. -/
def pyStrIsLower (s : String) : Bool :=
  s.data.any (fun c => c.isAlpha) && s.data.all (fun c => !c.isUpper)

/-- Python's `str.lstrip('#')`: drop every leading `#`. -/
def pyLstripHash (s : String) : String :=
  String.mk (s.data.dropWhile (fun c => c == '#'))

/-- The whitespace characters stripped by Python's default `str.strip`. -/
def pyIsSpace (c : Char) : Bool :=
  c == ' ' || c == '\t' || c == '\n' || c == '\r' || c == '\x0b' || c == '\x0c'

/-- `s.strip() == ""` in Python: every character is whitespace. -/
def pyStripIsEmpty (s : String) : Bool :=
  s.data.all pyIsSpace

/-- An active-channel entity as it appears in snapshot listings
(`conversations_list` pages): the fields the program reads. -/
structure SnapChannel where
  id : String
  name : String
  is_archived : Bool := false
  deriving DecidableEq, Repr

/-- The fields of a `conversations_info` response channel object that the
program's logic reads. -/
structure ChannelInfo where
  name : String := ""
  is_archived : Bool := false
  is_general : Bool := false
  is_member : Bool := false
  deriving DecidableEq, Repr

/-- A structured `SlackApiError`: the error-code string of
`e.response["error"]`, and the optional `Retry-After` header read (as an
integer) on rate-limit errors. -/
structure SlackErr where
  code : String
  retryAfter : Option Nat := none
  deriving DecidableEq, Repr

/-- An exception raised by a remote call: a structured `SlackApiError`, or
any other (unexpected) exception with its message. -/
inductive PyExn where
  | slackApi (e : SlackErr)
  | other (msg : String)
  deriving DecidableEq, Repr

/-- An abstraction of Python's `str(e)` for an exception value, used only to
build human-readable failure messages. -/
def pyStr : PyExn → String
  | .slackApi e => "SlackApiError: " ++ e.code
  | .other m => m

/-- The value of a Python function call that may either return or let an
exception propagate to the caller. -/
inductive PyResult (α : Type) where
  | ret (a : α)
  | exn (e : PyExn)
  deriving DecidableEq, Repr

/-- `ChannelActionResult` from `channel_actions.py`: the (success, message)
outcome of one action. -/
structure ChannelActionResult where
  success : Bool
  message : String
  deriving DecidableEq, Repr

/-- One page of a paginated `conversations_list` response. -/
structure ListPage where
  channels : List SnapChannel
  next_cursor : Option String := none
  deriving DecidableEq, Repr

/-- A successful remote response that carries only its `ok` field. -/
structure OkResp where
  ok : Bool := true
  deriving DecidableEq, Repr

/-- A successful `conversations_rename` response: its `ok` field and the name
Slack actually assigned (`response["channel"]["name"]`). -/
structure RenameResp where
  ok : Bool := true
  name : String
  deriving DecidableEq, Repr

/-- The observable events of one execution: remote calls, sleeps and
operator prompts, in order. -/
inductive Eff where
  | infoCall (channel : String)
  | listCall
  | listPageCall (page : Nat)
  | joinCall (channel : String)
  | postMessageCall (channel : String)
  | archiveCall (channel : String)
  | renameCall (channel : String) (newName : String)
  | setPurposeCall (channel : String) (attempt : Nat)
  | leaveCall (channel : String)
  | sleepCall (secs : Nat)
  | prompt
  deriving DecidableEq, Repr

/-- The remote calls that mutate workspace state (archive, rename,
set-purpose, join, leave, post-message), as opposed to reads and local
events. -/
def Eff.isMutating : Eff → Bool
  | .joinCall _ => true
  | .postMessageCall _ => true
  | .archiveCall _ => true
  | .renameCall _ _ => true
  | .setPurposeCall _ _ => true
  | .leaveCall _ => true
  | _ => false

/-- The remote service's behaviour for the calls one `execute_action`
invocation can make.  `listPages` is the finite sequence of pages the server
would serve to the fallback pagination; `setPurpose` is indexed by the
attempt number because the call is retried. -/
structure ActionClient where
  info : Except PyExn ChannelInfo
  listPages : List (Except PyExn ListPage)
  join : Except PyExn OkResp
  postMessage : Except PyExn Unit
  archive : Except PyExn OkResp
  rename : Except PyExn RenameResp
  setPurpose : Nat → Except PyExn OkResp
  leave : Except PyExn Unit

/-! ### Action Handler (`channel_actions.py`) -/

/-- The per-character validity test of `rename_channel` (line 247):
`c.islower() or c.isdigit() or c in '-_'`. -/
def renameCharOk (c : Char) : Bool :=
  c.isLower || c.isDigit || c == '-' || c == '_'

/-- The error-code-to-message map of `archive_channel` (lines 210-220), with
the generic fallback for unrecognized codes (line 223). -/
def archiveErrMsg (channel_name code : String) : String :=
  if code = "already_archived" then
    "#" ++ channel_name ++ " is already archived"
  else if code = "cant_archive_general" then
    "Cannot archive #" ++ channel_name ++ ": This is the workspace\x27s general channel"
  else if code = "cant_archive_required" then
    "Cannot archive #" ++ channel_name ++ ": This is a required channel"
  else if code = "not_in_channel" then
    "Cannot archive #" ++ channel_name ++ ": You must be a member of the channel"
  else if code = "restricted_action" then
    "Cannot archive #" ++ channel_name ++ ": Your workspace settings prevent channel archiving"
  else if code = "missing_scope" then
    "Cannot archive #" ++ channel_name ++ ": Missing required permissions. " ++
      "Need channels:write for public channels or groups:write for private channels."
  else
    "Failed to archive #" ++ channel_name ++ ": " ++ code

/-- The pagination loop of `archive_channel` (lines 127-147) that resolves a
redirect-target channel by name when no snapshot was supplied.  The client's
`listPages` is the finite sequence of pages the server serves; the loop stops
as soon as the target is found or a page carries no continuation cursor.  (If
the page script is exhausted the loop is modelled as ending without a find; a
well-formed remote behaviour, `ActionClient.wfPages`, ends with a cursorless
page, so that case is never reached.) -/
def findTargetByPages (target_channel : String) :
    List (Except PyExn ListPage) → Nat → PyResult (Option SnapChannel) × List Eff
  | [], _ => (.ret none, [])
  | p :: rest, i =>
    match p with
    | .error e => (.exn e, [.listPageCall i])
    | .ok pg =>
      match pg.channels.find? (fun ch => ch.name == target_channel) with
      | some t => (.ret (some t), [.listPageCall i])
      | none =>
        match pg.next_cursor with
        | none => (.ret none, [.listPageCall i])
        | some _ =>
          let (r, tr) := findTargetByPages target_channel rest (i + 1)
          (r, .listPageCall i :: tr)

/-- Target resolution in `archive_channel` (lines 120-147): use the supplied
channel list when it is truthy (non-`None` and non-empty), otherwise fall
back to paginated fetching. -/
def resolveTarget (c : ActionClient) (target_channel : String)
    (current_channels : Option (List SnapChannel)) :
    PyResult (Option SnapChannel) × List Eff :=
  match current_channels with
  | some l =>
    if l.isEmpty then findTargetByPages target_channel c.listPages 0
    else (.ret (l.find? (fun ch => ch.name == target_channel)), [])
  | none => findTargetByPages target_channel c.listPages 0

/-- Join-then-post of the redirect notice (lines 170-191).  A
`SlackApiError` from the join is ignored; a `SlackApiError` from the post is
downgraded to a warning and does not block archival; any other exception
propagates. -/
def postNotice (c : ActionClient) (channel_id : String) : PyResult Unit × List Eff :=
  match c.join with
  | .error (.other m) => (.exn (.other m), [.joinCall channel_id])
  | .error (.slackApi _) | .ok _ =>
    match c.postMessage with
    | .ok _ => (.ret (), [.joinCall channel_id, .postMessageCall channel_id])
    | .error (.slackApi _) => (.ret (), [.joinCall channel_id, .postMessageCall channel_id])
    | .error (.other m) => (.exn (.other m), [.joinCall channel_id, .postMessageCall channel_id])

/-- The final `conversations_archive` call (lines 199-224).  `redirect` is
the stripped target name when a redirect was used.  When the response is
returned with a falsy `ok` field the Python function falls off the end and
returns `None`; a structured error is mapped through `archiveErrMsg`. -/
def archiveFinal (c : ActionClient) (channel_id channel_name : String)
    (redirect : Option String) : PyResult (Option ChannelActionResult) × List Eff :=
  match c.archive with
  | .ok resp =>
    if resp.ok then
      (.ret (some ⟨true, "Successfully archived #" ++ channel_name ++
        (match redirect with
         | some t => " (with redirect to #" ++ t ++ ")"
         | none => "")⟩), [.archiveCall channel_id])
    else (.ret none, [.archiveCall channel_id])
  | .error (.slackApi e) =>
    (.ret (some ⟨false, archiveErrMsg channel_name e.code⟩), [.archiveCall channel_id])
  | .error (.other m) => (.exn (.other m), [.archiveCall channel_id])

/-- The redirect-target block of `archive_channel` (lines 116-197): resolve
the target, fail if missing or archived, post the notice, then archive.  A
`SlackApiError` during resolution is caught at line 193. -/
def archiveWithTarget (c : ActionClient) (channel_id channel_name target_channel : String)
    (current_channels : Option (List SnapChannel)) :
    PyResult (Option ChannelActionResult) × List Eff :=
  match resolveTarget c target_channel current_channels with
  | (.exn (.slackApi _), tr) =>
    (.ret (some ⟨false, "Cannot archive #" ++ channel_name ++
      ": Failed to verify target channel"⟩), tr)
  | (.exn (.other m), tr) => (.exn (.other m), tr)
  | (.ret none, tr) =>
    (.ret (some ⟨false, "Cannot archive #" ++ channel_name ++ ": Target channel #" ++
      target_channel ++ " does not exist"⟩), tr)
  | (.ret (some t), tr) =>
    if t.is_archived then
      (.ret (some ⟨false, "Cannot archive #" ++ channel_name ++ ": Target channel #" ++
        target_channel ++ " is archived"⟩), tr)
    else
      match postNotice c channel_id with
      | (.exn e, tr2) => (.exn e, tr ++ tr2)
      | (.ret _, tr2) =>
        let (r, tr3) := archiveFinal c channel_id channel_name (some target_channel)
        (r, tr ++ tr2 ++ tr3)

/-- `ChannelActionHandler.archive_channel` (lines 79-224). -/
def archive_channel (c : ActionClient) (channel_id channel_name : String)
    (target_channel : Option String) (current_channels : Option (List SnapChannel)) :
    PyResult (Option ChannelActionResult) × List Eff :=
  let rest : PyResult (Option ChannelActionResult) × List Eff :=
    match c.info with
    | .error (.slackApi e) =>
      if e.code = "channel_not_found" then
        (.ret (some ⟨false, "Cannot archive #" ++ channel_name ++ ": Channel not found"⟩), [])
      else
        -- re-raised at line 113, caught by the outer handler at line 208
        (.ret (some ⟨false, archiveErrMsg channel_name e.code⟩), [])
    | .error (.other m) => (.exn (.other m), [])
    | .ok channel_info =>
      if channel_info.is_archived then
        (.ret (some ⟨false, "#" ++ channel_name ++ " is already archived"⟩), [])
      else if channel_info.is_general then
        (.ret (some ⟨false, "Cannot archive #" ++ channel_name ++
          ": This is the workspace\x27s general channel"⟩), [])
      else
        let tv := target_channel.getD ""
        if tv = "" then archiveFinal c channel_id channel_name none
        else archiveWithTarget c channel_id channel_name (pyLstripHash tv) current_channels
  (rest.1, .infoCall channel_id :: rest.2)

/-- The error-code-to-message map of `rename_channel` (lines 276-283) with
its generic fallback. -/
def renameErrMsg (old_name new_name code : String) : String :=
  if code = "not_authorized" then
    "You don\x27t have permission to rename this channel. " ++
      "Only channel creators, workspace admins, or channel managers can rename channels."
  else if code = "name_taken" then
    "Cannot rename " ++ old_name ++ ": The name \x27" ++ new_name ++ "\x27 is already taken"
  else if code = "invalid_name" then
    "Cannot rename " ++ old_name ++ ": Invalid channel name format"
  else if code = "not_in_channel" then
    "Cannot rename " ++ old_name ++ ": You must be a member of the channel"
  else if code = "is_archived" then
    "Cannot rename " ++ old_name ++ ": Channel is archived"
  else
    "Failed to rename " ++ old_name ++ ": " ++ code

/-- The local pre-remote validation of `rename_channel` (lines 233-252):
`some` is the failure it returns, `none` means the name passed validation. -/
def renameValidationError (old_name new_name : String) : Option ChannelActionResult :=
  if new_name = "" then
    some ⟨false, "Cannot rename " ++ old_name ++ ": New name cannot be empty"⟩
  else if new_name.length > 80 then
    some ⟨false, "Cannot rename " ++ old_name ++ ": New name exceeds 80 characters"⟩
  else if !(new_name.data.all renameCharOk) || new_name.data.contains '.' then
    some ⟨false, "Cannot rename " ++ old_name ++ ": Channel names can only contain " ++
      "lowercase letters, numbers, hyphens, and underscores"⟩
  else none

/-- `ChannelActionHandler.rename_channel` (lines 226-284). -/
def rename_channel (c : ActionClient) (channel_id old_name new_name : String) :
    PyResult (Option ChannelActionResult) × List Eff :=
  match renameValidationError old_name new_name with
  | some r => (.ret (some r), [])
  | none =>
    match c.rename with
    | .ok resp =>
      if resp.ok then
        if resp.name ≠ new_name then
          (.ret (some ⟨true, "Successfully renamed " ++ old_name ++ " to " ++ resp.name ++
            " (name was modified to meet Slack\x27s requirements)"⟩),
           [.renameCall channel_id new_name])
        else
          (.ret (some ⟨true, "Successfully renamed " ++ old_name ++ " to " ++ new_name⟩),
           [.renameCall channel_id new_name])
      else (.ret none, [.renameCall channel_id new_name])
    | .error (.slackApi e) =>
      (.ret (some ⟨false, renameErrMsg old_name new_name e.code⟩),
       [.renameCall channel_id new_name])
    | .error (.other m) => (.exn (.other m), [.renameCall channel_id new_name])

/-- `max_retries` in `update_description` (line 294). -/
def maxRetries : Nat := 3

/-- The error-code-to-message map of `update_description` (lines 377-382)
with its generic fallback (line 394). -/
def udErrMsg (channel_name code : String) : String :=
  if code = "not_in_channel" then
    "Cannot update description for #" ++ channel_name ++
      ": You must be a member of the channel"
  else if code = "is_archived" then
    "Cannot update description for #" ++ channel_name ++ ": Channel is archived"
  else if code = "missing_scope" then
    "Cannot update description for #" ++ channel_name ++ ": Missing required permissions"
  else if code = "not_authorized" then
    "Cannot update description for #" ++ channel_name ++
      ": You don\x27t have permission to update the description"
  else
    "Failed to update description for #" ++ channel_name ++ ": " ++ code

/-- The unexpected-error outcome built by the catch-all handler of
`update_description` (lines 425-428). -/
def udUnexpected (channel_name msg : String) : ChannelActionResult :=
  ⟨false, "Unexpected error updating description for #" ++ channel_name ++ ": " ++ msg⟩

/-- Whether a leave attempt guarded only by `except SlackApiError` lets its
exception propagate: true exactly for a non-`SlackApiError` failure. -/
def leaveRaises : Except PyExn Unit → Option String
  | .error (.other m) => some m
  | _ => none

/-- How the retry loop of `update_description` (lines 340-398) ends. -/
inductive UDLoopOut where
  | result (r : ChannelActionResult)
  | broke
  | exhausted
  | raised (e : PyExn)
  deriving DecidableEq, Repr

/-- One post-set-purpose exit of the retry loop: the leave attempt made when
the caller had joined (guarded only by `except SlackApiError`, so a non-API
leave failure propagates), followed by the given outcome. -/
def udLoopExit (c : ActionClient) (channel_id : String) (was_member : Bool)
    (out : UDLoopOut) : UDLoopOut × List Eff :=
  if was_member then (out, [])
  else
    match leaveRaises c.leave with
    | some m => (.raised (.other m), [.leaveCall channel_id])
    | none => (out, [.leaveCall channel_id])

/-- The `while retry_count < max_retries` loop of `update_description`
(lines 340-398).  Each iteration makes one `conversations_setPurpose`
attempt; a rate-limit error sleeps the server-specified (default 5 second)
backoff and retries; any other structured error (after a leave attempt when
the caller had joined) ends with a mapped failure; a successful call first
attempts to leave when the caller had joined and then returns success, or
`break`s when the response's `ok` field is falsy.  The loop guard
`retry_count < max_retries` is represented by the `fuel` argument, which at
every call equals `maxRetries - retry_count`: fuel `0` is exactly a failed
guard. -/
def udLoop (c : ActionClient) (channel_id channel_name : String) (was_member : Bool) :
    Nat → Nat → UDLoopOut × List Eff
  | 0, _ => (.exhausted, [])
  | fuel + 1, retry_count =>
    match c.setPurpose retry_count with
    | .ok resp =>
      let ex := udLoopExit c channel_id was_member
        (if resp.ok then
          .result ⟨true, "Successfully updated description for #" ++ channel_name⟩
         else .broke)
      (ex.1, Eff.setPurposeCall channel_id retry_count :: ex.2)
    | .error (.slackApi e) =>
      if e.code = "ratelimited" then
        let retry_after := e.retryAfter.getD 5
        let next := udLoop c channel_id channel_name was_member fuel (retry_count + 1)
        (next.1, Eff.setPurposeCall channel_id retry_count ::
          Eff.sleepCall retry_after :: next.2)
      else
        let ex := udLoopExit c channel_id was_member
          (.result ⟨false, udErrMsg channel_name e.code⟩)
        (ex.1, Eff.setPurposeCall channel_id retry_count :: ex.2)
    | .error (.other m) =>
      (.raised (.other m), [.setPurposeCall channel_id retry_count])

/-- How the join stage of `update_description` (lines 319-337) ends. -/
inductive JoinOut where
  | proceed
  | failed (r : ChannelActionResult)
  | raised (e : PyExn)
  deriving DecidableEq, Repr

/-- The join stage of `update_description` (lines 319-337), entered only when
the caller is not already a member: a falsy join response or one of three
hard error codes is a hard failure; other structured errors are logged and
execution continues; an unexpected exception propagates. -/
def udJoinStage (c : ActionClient) (channel_id channel_name : String) :
    JoinOut × List Eff :=
  match c.join with
  | .ok resp =>
    if resp.ok then (.proceed, [.joinCall channel_id])
    else (.failed ⟨false, "Cannot update description for #" ++ channel_name ++
      ": Failed to join channel"⟩, [.joinCall channel_id])
  | .error (.slackApi e) =>
    if e.code = "method_not_supported_for_channel_type" ∨ e.code = "channel_not_found" ∨
        e.code = "missing_scope" then
      (.failed ⟨false, "Cannot update description for #" ++ channel_name ++
        ": Not a member and unable to join (" ++ e.code ++ ")"⟩, [.joinCall channel_id])
    else (.proceed, [.joinCall channel_id])
  | .error (.other m) => (.raised (.other m), [.joinCall channel_id])

/-- `ChannelActionHandler.update_description` (lines 286-428).  The function
never lets an exception escape: its outer `except Exception` (line 415)
converts any propagating exception into the unexpected-error outcome, after
one more leave attempt (guarded by a catch-all) when the caller had joined.
It returns `none` exactly on the fall-off-the-end path (a set-purpose
response with a falsy `ok` field). -/
def update_description (c : ActionClient) (channel_id channel_name : String) :
    Option ChannelActionResult × List Eff :=
  let rest : Option ChannelActionResult × List Eff :=
    match c.info with
    | .error (.slackApi e) =>
      if e.code = "channel_not_found" then
        (some ⟨false, "Cannot update description for #" ++ channel_name ++
          ": Channel not found"⟩, [])
      else
        -- re-raised at line 317; `was_member` is still `True`, so no leave attempt
        (some (udUnexpected channel_name (pyStr (.slackApi e))), [])
    | .error (.other m) => (some (udUnexpected channel_name m), [])
    | .ok channel_info =>
      if channel_info.is_archived then
        (some ⟨false, "Cannot update description for #" ++ channel_name ++
          ": Channel is archived"⟩, [])
      else
        let was_member := channel_info.is_member
        let joinStage : JoinOut × List Eff :=
          if was_member then (.proceed, []) else udJoinStage c channel_id channel_name
        match joinStage with
        | (.failed r, jtr) => (some r, jtr)
        | (.raised e, jtr) =>
          -- line 415: the catch-all attempts a leave because `was_member` is false here
          (some (udUnexpected channel_name (pyStr e)), jtr ++ [.leaveCall channel_id])
        | (.proceed, jtr) =>
          match udLoop c channel_id channel_name was_member maxRetries 0 with
          | (.result r, tr) => (some r, jtr ++ tr)
          | (.broke, tr) => (none, jtr ++ tr)
          | (.exhausted, tr) =>
            -- lines 400-413: leave (except SlackApiError) then the distinct failure
            if was_member then
              (some ⟨false, "Failed to update description for #" ++ channel_name ++
                ": Rate limit exceeded after " ++ toString maxRetries ++ " retries"⟩,
               jtr ++ tr)
            else
              match leaveRaises c.leave with
              | some m =>
                (some (udUnexpected channel_name m),
                 jtr ++ tr ++ [.leaveCall channel_id, .leaveCall channel_id])
              | none =>
                (some ⟨false, "Failed to update description for #" ++ channel_name ++
                  ": Rate limit exceeded after " ++ toString maxRetries ++ " retries"⟩,
                 jtr ++ tr ++ [.leaveCall channel_id])
          | (.raised e, tr) =>
            if was_member then (some (udUnexpected channel_name (pyStr e)), jtr ++ tr)
            else
              (some (udUnexpected channel_name (pyStr e)),
               jtr ++ tr ++ [.leaveCall channel_id])
  (rest.1, .infoCall channel_id :: rest.2)

/-- The catch-all mapping of `execute_action` (lines 73-77). -/
def executeActionCatch (channel_name : String) : PyExn → ChannelActionResult
  | .slackApi e => ⟨false, "Slack API error for " ++ channel_name ++ ": " ++ e.code⟩
  | .other m => ⟨false, "Unexpected error for " ++ channel_name ++ ": " ++ m⟩

/-- `ChannelActionHandler.execute_action` (lines 28-77): dispatch on the
action string, with every exception raised by a sub-handler converted to a
failed outcome by the surrounding `try`.  Returns `none` exactly when the
sub-handler returned Python `None`. -/
def execute_action (c : ActionClient) (channel_id channel_name : String)
    (action : String) (target_value : Option String)
    (current_channels : Option (List SnapChannel)) :
    Option ChannelActionResult × List Eff :=
  if action = "keep" then
    (some ⟨true, "Channel " ++ channel_name ++ " kept as is"⟩, [])
  else if action = "new" then
    (some ⟨false, "Channel " ++ channel_name ++
      " needs review - please change action from \x27new\x27"⟩, [])
  else if action = "archive" then
    match archive_channel c channel_id channel_name target_value current_channels with
    | (.ret r, tr) => (r, tr)
    | (.exn e, tr) => (some (executeActionCatch channel_name e), tr)
  else if action = "rename" then
    if (target_value.getD "") = "" then
      (some ⟨false, "New name not specified for renaming " ++ channel_name⟩, [])
    else
      match rename_channel c channel_id channel_name (target_value.getD "") with
      | (.ret r, tr) => (r, tr)
      | (.exn e, tr) => (some (executeActionCatch channel_name e), tr)
  else if action = "update_description" then
    match target_value with
    | none => (some ⟨false, "New description not specified for " ++ channel_name⟩, [])
    | some tv =>
      if pyStripIsEmpty tv then
        (some ⟨false, "New description not specified for " ++ channel_name⟩, [])
      else update_description c channel_id channel_name
  else
    (some ⟨false, "Unknown action \x27" ++ action ++ "\x27 for channel " ++ channel_name⟩, [])

/-! ### Well-formed remote behaviours and basic string facts -/

/-- Whether an effect is one of the `conversations_setPurpose` attempts. -/
def Eff.isSetPurpose : Eff → Bool
  | .setPurposeCall _ _ => true
  | _ => false

/-- `slack_sdk`'s `WebClient` raises a `SlackApiError` whenever a response
carries a falsy `ok` field, so a well-formed remote behaviour never returns
a successful response with `ok = false`. -/
def ActionClient.wfOk (c : ActionClient) : Prop :=
  (∀ r, c.archive = .ok r → r.ok = true) ∧
  (∀ r, c.rename = .ok r → r.ok = true) ∧
  (∀ n r, c.setPurpose n = .ok r → r.ok = true)

/-- A well-formed paginated listing serves at least one page and its final
page carries no continuation cursor. -/
def ActionClient.wfPages (c : ActionClient) : Prop :=
  c.listPages ≠ [] ∧
  ∀ pg, c.listPages.getLast? = some (.ok pg) → pg.next_cursor = none

theorem str_ne_empty_iff (s : String) : s ≠ "" ↔ s.data ≠ [] := by
  cases s with
  | mk l =>
    constructor
    · intro h hd
      exact h (by simpa using congrArg String.mk hd)
    · intro h hd
      exact h (congrArg String.data hd)

theorem append_ne_left (a b : String) (h : a ≠ "") : a ++ b ≠ "" := by
  rw [str_ne_empty_iff] at h ⊢
  simp only [String.data_append]
  intro hab
  exact h (List.append_eq_nil.mp hab).1

theorem append_ne_right (a b : String) (h : b ≠ "") : a ++ b ≠ "" := by
  rw [str_ne_empty_iff] at h ⊢
  simp only [String.data_append]
  intro hab
  exact h (List.append_eq_nil.mp hab).2

theorem archiveErrMsg_ne (cn code : String) : archiveErrMsg cn code ≠ "" := by
  unfold archiveErrMsg
  split_ifs
  all_goals first
    | exact append_ne_right _ _ (by decide)
    | exact append_ne_left _ _ (append_ne_right _ _ (by decide))

theorem udErrMsg_ne (cn code : String) : udErrMsg cn code ≠ "" := by
  unfold udErrMsg
  split_ifs
  all_goals first
    | exact append_ne_right _ _ (by decide)
    | exact append_ne_left _ _ (append_ne_right _ _ (by decide))

theorem renameErrMsg_ne (old_name new_name code : String) :
    renameErrMsg old_name new_name code ≠ "" := by
  unfold renameErrMsg
  split_ifs
  all_goals first
    | exact append_ne_right _ _ (by decide)
    | exact append_ne_left _ _ (append_ne_right _ _ (by decide))

theorem udUnexpected_ne (cn msg : String) : (udUnexpected cn msg).message ≠ "" := by
  unfold udUnexpected
  exact append_ne_left _ _ (append_ne_right _ _ (by decide))

theorem executeActionCatch_ne (cn : String) (e : PyExn) :
    (executeActionCatch cn e).message ≠ "" := by
  cases e <;>
    exact append_ne_left _ _ (append_ne_right _ _ (by decide))

/-- A handler outcome is good when it is a returned result with a non-empty
message, or a propagating exception (which the dispatcher maps); a returned
Python `None` is not good. -/
def goodOut : PyResult (Option ChannelActionResult) → Prop
  | .ret (some r) => r.message ≠ ""
  | .ret none => False
  | .exn _ => True

theorem archiveFinal_good (c : ActionClient) (cid cn : String) (rd : Option String)
    (hwf : ∀ r, c.archive = .ok r → r.ok = true) :
    goodOut (archiveFinal c cid cn rd).1 := by
  unfold archiveFinal
  match harch : c.archive with
  | .ok resp =>
    dsimp only
    rw [hwf resp harch]
    simp only [if_true]
    exact append_ne_left _ _ (append_ne_left _ _ (by decide))
  | .error (.slackApi e) => exact archiveErrMsg_ne cn e.code
  | .error (.other m) => trivial

theorem archiveWithTarget_good (c : ActionClient) (cid cn tn : String)
    (cc : Option (List SnapChannel))
    (hwf : ∀ r, c.archive = .ok r → r.ok = true) :
    goodOut (archiveWithTarget c cid cn tn cc).1 := by
  unfold archiveWithTarget
  match hres : resolveTarget c tn cc with
  | (.exn (.slackApi e), tr) =>
    exact append_ne_right _ _ (by decide)
  | (.exn (.other m), tr) => trivial
  | (.ret none, tr) =>
    exact append_ne_right _ _ (by decide)
  | (.ret (some t), tr) =>
    by_cases harch : t.is_archived
    · simp only [harch, if_true]
      exact append_ne_right _ _ (by decide)
    · simp only [harch, if_false]
      match hpn : postNotice c cid with
      | (.exn e, tr2) => trivial
      | (.ret _, tr2) =>
        have := archiveFinal_good c cid cn (some tn) hwf
        revert this
        match haf : archiveFinal c cid cn (some tn) with
        | (r, tr3) => exact fun h => h

theorem archive_channel_good (c : ActionClient) (cid cn : String)
    (tv : Option String) (cc : Option (List SnapChannel))
    (hwf : ∀ r, c.archive = .ok r → r.ok = true) :
    goodOut (archive_channel c cid cn tv cc).1 := by
  unfold archive_channel
  match hinfo : c.info with
  | .error (.slackApi e) =>
    by_cases h : e.code = "channel_not_found"
    · simp only [h, if_true]
      exact append_ne_right _ _ (by decide)
    · simp only [h, if_false]
      exact archiveErrMsg_ne cn e.code
  | .error (.other m) => trivial
  | .ok channel_info =>
    by_cases h1 : channel_info.is_archived
    · simp only [h1, if_true]
      exact append_ne_right _ _ (by decide)
    · by_cases h2 : channel_info.is_general
      · simp only [h1, h2, if_true, if_false]
        exact append_ne_right _ _ (by decide)
      · by_cases h3 : tv.getD "" = ""
        · simp only [h1, h2, h3, if_true, if_false]
          have := archiveFinal_good c cid cn none hwf
          revert this
          match archiveFinal c cid cn none with
          | (r, tr) => exact fun h => h
        · simp only [h1, h2, h3, if_false]
          have := archiveWithTarget_good c cid cn (pyLstripHash (tv.getD "")) cc hwf
          revert this
          match archiveWithTarget c cid cn (pyLstripHash (tv.getD "")) cc with
          | (r, tr) => exact fun h => h

theorem rename_channel_good (c : ActionClient) (cid old_name new_name : String)
    (hwf : ∀ r, c.rename = .ok r → r.ok = true) :
    goodOut (rename_channel c cid old_name new_name).1 := by
  unfold rename_channel renameValidationError
  split_ifs
  · exact append_ne_right _ _ (by decide)
  · exact append_ne_right _ _ (by decide)
  · exact append_ne_right _ _ (by decide)
  · match hr : c.rename with
    | .ok resp =>
      dsimp only
      rw [hwf resp hr]
      simp only [if_true]
      by_cases hn : resp.name = new_name
      · rw [if_neg (fun hne => hne hn)]
        exact append_ne_left _ _ (append_ne_right _ _ (by decide))
      · rw [if_pos hn]
        exact append_ne_right _ _ (by decide)
    | .error (.slackApi e) => exact renameErrMsg_ne old_name new_name e.code
    | .error (.other m) => trivial

/-- Goodness of a retry-loop outcome: the loop never `break`s (which is the
only source of a Python `None` return) and every result message is
non-empty. -/
def udOutGood : UDLoopOut → Prop
  | .result r => r.message ≠ ""
  | .broke => False
  | .exhausted => True
  | .raised _ => True

theorem udLoopExit_good (c : ActionClient) (cid : String) (wm : Bool)
    (out : UDLoopOut) (h : udOutGood out) :
    udOutGood (udLoopExit c cid wm out).1 := by
  unfold udLoopExit
  by_cases hwm : wm
  · simpa [hwm] using h
  · simp only [hwm, if_false]
    match leaveRaises c.leave with
    | some m => trivial
    | none => simpa using h

theorem udLoop_good (c : ActionClient) (cid cn : String) (wm : Bool)
    (hwf : ∀ n r, c.setPurpose n = .ok r → r.ok = true) :
    ∀ fuel rc, udOutGood (udLoop c cid cn wm fuel rc).1 := by
  intro fuel
  induction fuel with
  | zero => intro rc; trivial
  | succ fuel ih =>
    intro rc
    unfold udLoop
    match hsp : c.setPurpose rc with
    | .ok resp =>
      dsimp only
      rw [hwf rc resp hsp]
      simp only [if_true]
      exact udLoopExit_good c cid wm _
        (append_ne_left _ _ (by decide))
    | .error (.slackApi e) =>
      by_cases hc : e.code = "ratelimited"
      · simp only [hc, if_true]
        exact ih (rc + 1)
      · simp only [hc, if_false]
        exact udLoopExit_good c cid wm _ (udErrMsg_ne cn e.code)
    | .error (.other m) => trivial

theorem udJoinStage_failed_msg (c : ActionClient) (cid cn : String)
    (r : ChannelActionResult) (jtr : List Eff)
    (h : udJoinStage c cid cn = (.failed r, jtr)) : r.message ≠ "" := by
  unfold udJoinStage at h
  revert h
  match c.join with
  | .ok resp =>
    dsimp only
    by_cases hok : resp.ok
    · simp [hok]
    · simp only [hok, if_false]
      intro h
      injection h with h1 h2
      injection h1 with h1
      rw [← h1]
      exact append_ne_right _ _ (by decide)
  | .error (.slackApi e) =>
    dsimp only
    split_ifs
    · intro h
      injection h with h1 h2
      injection h1 with h1
      rw [← h1]
      exact append_ne_right _ _ (by decide)
    · intro h
      simp at h
  | .error (.other m) =>
    intro h
    simp at h

theorem update_description_good (c : ActionClient) (cid cn : String)
    (hwf : ∀ n r, c.setPurpose n = .ok r → r.ok = true) :
    ∃ r, (update_description c cid cn).1 = some r ∧ r.message ≠ "" := by
  unfold update_description
  match hinfo : c.info with
  | .error (.slackApi e) =>
    dsimp only
    by_cases h : e.code = "channel_not_found"
    · rw [if_pos h]
      exact ⟨_, rfl, append_ne_right _ _ (by decide)⟩
    · rw [if_neg h]
      exact ⟨_, rfl, udUnexpected_ne cn _⟩
  | .error (.other m) => exact ⟨_, rfl, udUnexpected_ne cn m⟩
  | .ok channel_info =>
    dsimp only
    by_cases h1 : channel_info.is_archived
    · rw [if_pos h1]
      exact ⟨_, rfl, append_ne_right _ _ (by decide)⟩
    · rw [if_neg h1]
      by_cases hm : channel_info.is_member
      · simp only [hm, if_true]
        have hg := udLoop_good c cid cn true hwf maxRetries 0
        revert hg
        match hu : udLoop c cid cn true maxRetries 0 with
        | (.result r, tr) => exact fun hg => ⟨r, rfl, hg⟩
        | (.broke, tr) => exact fun hg => absurd hg (by simp [udOutGood])
        | (.exhausted, tr) =>
          exact fun _ => ⟨_, rfl, append_ne_right _ _ (by decide)⟩
        | (.raised e, tr) =>
          exact fun _ => ⟨_, rfl, udUnexpected_ne cn _⟩
      · simp only [eq_false_of_ne_true hm, if_false, Bool.false_eq_true]
        match hjs : udJoinStage c cid cn with
        | (.failed r, jtr) =>
          exact ⟨r, rfl, udJoinStage_failed_msg c cid cn r jtr hjs⟩
        | (.raised e, jtr) =>
          exact ⟨_, rfl, udUnexpected_ne cn _⟩
        | (.proceed, jtr) =>
          have hg := udLoop_good c cid cn false hwf maxRetries 0
          revert hg
          match hu : udLoop c cid cn false maxRetries 0 with
          | (.result r, tr) => exact fun hg => ⟨r, rfl, hg⟩
          | (.broke, tr) => exact fun hg => absurd hg (by simp [udOutGood])
          | (.exhausted, tr) =>
            intro _
            dsimp only
            match leaveRaises c.leave with
            | some m => exact ⟨_, rfl, udUnexpected_ne cn m⟩
            | none => exact ⟨_, rfl, append_ne_right _ _ (by decide)⟩
          | (.raised e, tr) =>
            exact fun _ => ⟨_, rfl, udUnexpected_ne cn _⟩

/-! ### Claim C3 -/

/-- C3: for every channel id, name, action, target value and snapshot, and
for every well-formed remote-client behaviour (structured `SlackApiError`s
and unexpected exceptions included), `execute_action` returns a
`ChannelActionResult` — mapping every failure into an outcome with a
non-empty human-readable message — and never lets an exception propagate
(exceptions are explicit values in the embedding, and none reaches the
caller). -/
theorem c3_execute_action_total (c : ActionClient) (channel_id channel_name action : String)
    (target_value : Option String) (current_channels : Option (List SnapChannel))
    (hwf : c.wfOk) (_hpg : c.wfPages) :
    ∃ r, (execute_action c channel_id channel_name action target_value
      current_channels).1 = some r ∧ r.message ≠ "" := by
  unfold execute_action
  by_cases h1 : action = "keep"
  · rw [if_pos h1]
    exact ⟨_, rfl, append_ne_right _ _ (by decide)⟩
  · rw [if_neg h1]
    by_cases h2 : action = "new"
    · rw [if_pos h2]
      exact ⟨_, rfl, append_ne_right _ _ (by decide)⟩
    · rw [if_neg h2]
      by_cases h3 : action = "archive"
      · rw [if_pos h3]
        have g := archive_channel_good c channel_id channel_name target_value
          current_channels hwf.1
        revert g
        match archive_channel c channel_id channel_name target_value current_channels with
        | (.ret (some r), tr) => exact fun g => ⟨r, rfl, g⟩
        | (.ret none, tr) => exact fun g => absurd g (by simp [goodOut])
        | (.exn e, tr) => exact fun _ => ⟨_, rfl, executeActionCatch_ne channel_name e⟩
      · rw [if_neg h3]
        by_cases h4 : action = "rename"
        · rw [if_pos h4]
          by_cases h5 : target_value.getD "" = ""
          · rw [if_pos h5]
            exact ⟨_, rfl, append_ne_left _ _ (by decide)⟩
          · rw [if_neg h5]
            have g := rename_channel_good c channel_id channel_name
              (target_value.getD "") hwf.2.1
            revert g
            match rename_channel c channel_id channel_name (target_value.getD "") with
            | (.ret (some r), tr) => exact fun g => ⟨r, rfl, g⟩
            | (.ret none, tr) => exact fun g => absurd g (by simp [goodOut])
            | (.exn e, tr) => exact fun _ => ⟨_, rfl, executeActionCatch_ne channel_name e⟩
        · rw [if_neg h4]
          by_cases h6 : action = "update_description"
          · rw [if_pos h6]
            match target_value with
            | none => exact ⟨_, rfl, append_ne_left _ _ (by decide)⟩
            | some tv =>
              dsimp only
              by_cases h7 : pyStripIsEmpty tv
              · rw [if_pos h7]
                exact ⟨_, rfl, append_ne_left _ _ (by decide)⟩
              · rw [if_neg h7]
                exact update_description_good c channel_id channel_name hwf.2.2
          · rw [if_neg h6]
            exact ⟨_, rfl, append_ne_left _ _ (append_ne_right _ _ (by decide))⟩

/-- A concrete well-formed client used to witness C3. -/
def c3Client : ActionClient :=
  { info := .ok { name := "ch", is_member := true }
  , listPages := [.ok { channels := [], next_cursor := none }]
  , join := .ok {}
  , postMessage := .ok ()
  , archive := .ok {}
  , rename := .ok { name := "new-name" }
  , setPurpose := fun _ => .ok {}
  , leave := .ok () }

theorem c3_execute_action_total_witness :
    ∃ r, (execute_action c3Client "C1" "ch" "archive" (some "tgt")
      (some [{ id := "T", name := "tgt" }])).1 = some r ∧ r.message ≠ "" :=
  c3_execute_action_total c3Client "C1" "ch" "archive" (some "tgt")
    (some [{ id := "T", name := "tgt" }])
    ⟨fun r h => by injection h with h1; rw [← h1],
     fun r h => by injection h with h1; rw [← h1],
     fun n r h => by injection h with h1; rw [← h1]⟩
    ⟨fun h => List.cons_ne_nil _ _ h,
     fun pg h => by injection h with h1; injection h1 with h2; rw [← h2]⟩

/-! ### Claim C5 -/

/-- The event trace produced by `fuel` consecutive rate-limited set-purpose
attempts starting at attempt `rc`: each attempt is followed by a sleep of
the server-specified (or default 5 second) backoff. -/
def rlTrace (cid : String) (ra : Nat → Option Nat) : Nat → Nat → List Eff
  | 0, _ => []
  | fuel + 1, rc =>
    .setPurposeCall cid rc :: .sleepCall ((ra rc).getD 5) :: rlTrace cid ra fuel (rc + 1)

theorem udLoop_ratelimited (c : ActionClient) (cid cn : String) (wm : Bool)
    (ra : Nat → Option Nat)
    (hrl : ∀ k, c.setPurpose k = .error (.slackApi ⟨"ratelimited", ra k⟩)) :
    ∀ fuel rc, udLoop c cid cn wm fuel rc = (.exhausted, rlTrace cid ra fuel rc) := by
  intro fuel
  induction fuel with
  | zero => intro rc; rfl
  | succ fuel ih =>
    intro rc
    unfold udLoop
    rw [hrl rc]
    dsimp only
    rw [if_pos rfl, ih (rc + 1)]
    rfl

/-- C5: when the remote set-purpose call persistently returns a rate-limit
error, `update_description` makes exactly 3 set-purpose attempts, never
more, sleeps the server-specified (or default 5-second) backoff after each
attempt, and returns the distinct failure whose message reports the rate
limit being exceeded after 3 retries. -/
theorem c5_update_description_retry_bound (c : ActionClient) (cid cn : String)
    (inf : ChannelInfo) (ra : Nat → Option Nat)
    (hinfo : c.info = .ok inf) (ha : inf.is_archived = false)
    (hm : inf.is_member = true)
    (hrl : ∀ k, c.setPurpose k = .error (.slackApi ⟨"ratelimited", ra k⟩)) :
    update_description c cid cn =
      (some ⟨false, "Failed to update description for #" ++ cn ++
        ": Rate limit exceeded after 3 retries"⟩,
       [.infoCall cid, .setPurposeCall cid 0, .sleepCall ((ra 0).getD 5),
        .setPurposeCall cid 1, .sleepCall ((ra 1).getD 5),
        .setPurposeCall cid 2, .sleepCall ((ra 2).getD 5)]) ∧
    (update_description c cid cn).2.countP Eff.isSetPurpose = 3 := by
  have hmsg : ∀ s : String,
      ((s ++ ": Rate limit exceeded after ") ++ toString maxRetries) ++ " retries" =
        s ++ ": Rate limit exceeded after 3 retries" := by
    intro s
    simp only [String.append_assoc]
    congr 1
  have hrun : update_description c cid cn =
      (some ⟨false, "Failed to update description for #" ++ cn ++
        ": Rate limit exceeded after 3 retries"⟩,
       [.infoCall cid, .setPurposeCall cid 0, .sleepCall ((ra 0).getD 5),
        .setPurposeCall cid 1, .sleepCall ((ra 1).getD 5),
        .setPurposeCall cid 2, .sleepCall ((ra 2).getD 5)]) := by
    unfold update_description
    rw [hinfo]
    dsimp only
    rw [if_neg (by simp [ha]), udLoop_ratelimited c cid cn _ ra hrl maxRetries 0]
    simp only [hm, if_true]
    rw [hmsg]
    rfl
  refine ⟨hrun, ?_⟩
  rw [hrun]
  simp [List.countP_cons, Eff.isSetPurpose]

/-- A concrete persistently-rate-limited client used to witness C5. -/
def c5Client : ActionClient :=
  { info := .ok { name := "ch", is_member := true }
  , listPages := [.ok { channels := [], next_cursor := none }]
  , join := .ok {}
  , postMessage := .ok ()
  , archive := .ok {}
  , rename := .ok { name := "new-name" }
  , setPurpose := fun _ => .error (.slackApi ⟨"ratelimited", some 7⟩)
  , leave := .ok () }

theorem c5_update_description_retry_bound_witness :
    update_description c5Client "C1" "ch" =
      (some ⟨false, "Failed to update description for #ch" ++
        ": Rate limit exceeded after 3 retries"⟩,
       [.infoCall "C1", .setPurposeCall "C1" 0, .sleepCall 7,
        .setPurposeCall "C1" 1, .sleepCall 7,
        .setPurposeCall "C1" 2, .sleepCall 7]) ∧
    (update_description c5Client "C1" "ch").2.countP Eff.isSetPurpose = 3 :=
  c5_update_description_retry_bound c5Client "C1" "ch"
    { name := "ch", is_member := true } (fun _ => some 7) rfl rfl rfl (fun _ => rfl)

/-! ### Claim C8 -/

theorem udLoop_false_leave (c : ActionClient) (cid cn : String) :
    ∀ fuel rc,
      (udLoop c cid cn false fuel rc).1 = .exhausted ∨
      (∃ e, (udLoop c cid cn false fuel rc).1 = .raised e) ∨
      Eff.leaveCall cid ∈ (udLoop c cid cn false fuel rc).2 := by
  intro fuel
  induction fuel with
  | zero => intro rc; exact Or.inl rfl
  | succ fuel ih =>
    intro rc
    unfold udLoop
    match c.setPurpose rc with
    | .ok resp =>
      dsimp only
      right; right
      unfold udLoopExit
      rw [if_neg (by simp)]
      cases hlr : leaveRaises c.leave <;> simp [hlr]
    | .error (.slackApi e) =>
      dsimp only
      by_cases hc : e.code = "ratelimited"
      · rw [if_pos hc]
        rcases ih (rc + 1) with h | ⟨e2, h⟩ | h
        · exact Or.inl h
        · exact Or.inr (Or.inl ⟨e2, h⟩)
        · right; right
          simp only [List.mem_cons]
          exact Or.inr (Or.inr h)
      · rw [if_neg hc]
        right; right
        unfold udLoopExit
        rw [if_neg (by simp)]
        cases hlr : leaveRaises c.leave <;> simp [hlr]
    | .error (.other m) =>
      exact Or.inr (Or.inl ⟨.other m, rfl⟩)

theorem udLoopExit_leave_congr (c₁ c₂ : ActionClient) (cid : String) (wm : Bool)
    (out : UDLoopOut) (hl : leaveRaises c₁.leave = leaveRaises c₂.leave) :
    udLoopExit c₁ cid wm out = udLoopExit c₂ cid wm out := by
  unfold udLoopExit
  rw [hl]

theorem udLoop_leave_congr (c₁ c₂ : ActionClient) (cid cn : String) (wm : Bool)
    (hsp : c₁.setPurpose = c₂.setPurpose)
    (hl : leaveRaises c₁.leave = leaveRaises c₂.leave) :
    ∀ fuel rc, udLoop c₁ cid cn wm fuel rc = udLoop c₂ cid cn wm fuel rc := by
  intro fuel
  induction fuel with
  | zero => intro rc; rfl
  | succ fuel ih =>
    intro rc
    unfold udLoop
    rw [hsp]
    match c₂.setPurpose rc with
    | .ok resp =>
      dsimp only
      rw [udLoopExit_leave_congr c₁ c₂ cid wm _ hl]
    | .error (.slackApi e) =>
      dsimp only
      by_cases hc : e.code = "ratelimited"
      · rw [if_pos hc, if_pos hc, ih (rc + 1)]
      · rw [if_neg hc, if_neg hc,
          udLoopExit_leave_congr c₁ c₂ cid wm _ hl]
    | .error (.other m) => rfl

theorem udJoinStage_leave_congr (c₁ c₂ : ActionClient) (cid cn : String)
    (hj : c₁.join = c₂.join) :
    udJoinStage c₁ cid cn = udJoinStage c₂ cid cn := by
  unfold udJoinStage
  rw [hj]

/-- The outcome of `update_description` does not depend on the leave
behaviour as long as the leave attempts do not raise a non-`SlackApiError`
exception. -/
theorem update_description_leave_congr (c₁ c₂ : ActionClient) (cid cn : String)
    (hinfo : c₁.info = c₂.info) (hj : c₁.join = c₂.join)
    (hsp : c₁.setPurpose = c₂.setPurpose)
    (hl : leaveRaises c₁.leave = leaveRaises c₂.leave) :
    update_description c₁ cid cn = update_description c₂ cid cn := by
  unfold update_description
  rw [hinfo]
  match c₂.info with
  | .error (.slackApi e) => rfl
  | .error (.other m) => rfl
  | .ok channel_info =>
    dsimp only
    by_cases h1 : channel_info.is_archived
    · rw [if_pos h1, if_pos h1]
    · rw [if_neg h1, if_neg h1,
        udJoinStage_leave_congr c₁ c₂ cid cn hj,
        udLoop_leave_congr c₁ c₂ cid cn channel_info.is_member hsp hl maxRetries 0,
        hl]

/-- C8 (amended): in every update-description execution in which the handler
joined the channel (the caller was not a member and the join succeeded), a
leave attempt appears on every exit path of the operation, and the
operation's outcome is unchanged under any variation of the leave behaviour
that does not raise a non-`SlackApiError` exception: a structured Slack API
failure of the leave call never changes the `ActionOutcome`. -/
theorem c8_update_description_leave (c : ActionClient) (cid cn : String)
    (inf : ChannelInfo) (hinfo : c.info = .ok inf) (ha : inf.is_archived = false)
    (hm : inf.is_member = false) (hj : c.join = .ok { ok := true }) :
    Eff.leaveCall cid ∈ (update_description c cid cn).2 ∧
    ∀ l₁ l₂ : Except PyExn Unit, leaveRaises l₁ = none → leaveRaises l₂ = none →
      update_description { c with leave := l₁ } cid cn =
        update_description { c with leave := l₂ } cid cn := by
  refine ⟨?_, fun l₁ l₂ h1 h2 =>
    update_description_leave_congr { c with leave := l₁ } { c with leave := l₂ }
      cid cn rfl rfl rfl (h1.trans h2.symm)⟩
  unfold update_description
  rw [hinfo]
  dsimp only
  rw [if_neg (by simp [ha])]
  simp only [hm, Bool.false_eq_true, if_false]
  rw [show udJoinStage c cid cn = (.proceed, [.joinCall cid]) by
    unfold udJoinStage; rw [hj]; rfl]
  dsimp only
  rcases udLoop_false_leave c cid cn maxRetries 0 with h | ⟨e, h⟩ | h
  · revert h
    match udLoop c cid cn false maxRetries 0 with
    | (.exhausted, tr) =>
      intro _
      dsimp only
      match leaveRaises c.leave with
      | some m => simp
      | none => simp
    | (.result r, tr) => intro h; cases h
    | (.broke, tr) => intro h; cases h
    | (.raised e2, tr) => intro h; cases h
  · revert h
    match udLoop c cid cn false maxRetries 0 with
    | (.raised e2, tr) => intro _; simp
    | (.result r, tr) => intro h; cases h
    | (.broke, tr) => intro h; cases h
    | (.exhausted, tr) => intro h; cases h
  · revert h
    match udLoop c cid cn false maxRetries 0 with
    | (.result r, tr) => intro h; simp [h]
    | (.broke, tr) => intro h; simp [h]
    | (.exhausted, tr) =>
      intro _
      dsimp only
      match leaveRaises c.leave with
      | some m => simp
      | none => simp
    | (.raised e2, tr) => intro _; simp

/-- A concrete joined-to-update client used for C8. -/
def c8Client : ActionClient :=
  { info := .ok { name := "ch", is_member := false }
  , listPages := [.ok { channels := [], next_cursor := none }]
  , join := .ok { ok := true }
  , postMessage := .ok ()
  , archive := .ok {}
  , rename := .ok { name := "new-name" }
  , setPurpose := fun _ => .ok {}
  , leave := .ok () }

theorem c8_update_description_leave_witness :
    Eff.leaveCall "C1" ∈ (update_description c8Client "C1" "ch").2 ∧
    update_description { c8Client with leave := .error (.slackApi ⟨"cant_leave", none⟩) }
        "C1" "ch" =
      update_description { c8Client with leave := .ok () } "C1" "ch" :=
  ⟨(c8_update_description_leave c8Client "C1" "ch"
      { name := "ch", is_member := false } rfl rfl rfl rfl).1,
   (c8_update_description_leave c8Client "C1" "ch"
      { name := "ch", is_member := false } rfl rfl rfl rfl).2
      (.error (.slackApi ⟨"cant_leave", none⟩)) (.ok ()) rfl rfl⟩

/-- The same client as `c8Client` except that the leave call fails with an
unexpected (non-`SlackApiError`) exception. -/
def c8ClientLeaveBad : ActionClient :=
  { c8Client with leave := .error (.other "connection reset") }

/-- C8 (counterexample to the claim as stated): with identical behaviour on
every call except the leave, a failing leave call changes the operation's
outcome from success to the unexpected-error failure, so a failure of the
leave call can change the `ActionOutcome`. -/
theorem c8_counterexample :
    c8ClientLeaveBad = { c8Client with leave := .error (.other "connection reset") } ∧
    (update_description c8Client "C1" "ch").1 =
      some ⟨true, "Successfully updated description for #ch"⟩ ∧
    (update_description c8ClientLeaveBad "C1" "ch").1 =
      some ⟨false, "Unexpected error updating description for #ch: connection reset"⟩ :=
  ⟨rfl, by decide, by decide⟩

/-! ### Claim C2: the Approval Gate's rename validation
(`channel_manager.py` lines 166-203) against the handler's
(`channel_actions.py` lines 233-252). -/

/-- The Approval Gate's rename auto-reject decision (lines 166-203 of
`channel_manager.py`, with the snapshot available): `true` when the gate
rejects without prompting.  The source performs the checks sequentially,
each returning `False`; the decision is their disjunction: name longer than
80 characters; not `islower()` or containing a space or a period; a
character outside lowercase/digit/hyphen/underscore; or a duplicate name in
the snapshot. -/
def gateRenameBlocks (target_value : String) (current_channels : List SnapChannel) : Bool :=
  decide (target_value.length > 80) ||
  (!(pyStrIsLower target_value) || target_value.data.contains ' ' ||
    target_value.data.contains '.') ||
  !(target_value.data.all renameCharOk) ||
  current_channels.any (fun ch => ch.name == target_value)

theorem uint32_le_iff (a b : UInt32) : a ≤ b ↔ a.toNat ≤ b.toNat := Iff.rfl

theorem renameCharOk_not_upper (c : Char) (h : renameCharOk c = true) :
    c.isUpper = false := by
  simp only [renameCharOk, Bool.or_eq_true, beq_iff_eq] at h
  simp only [Char.isUpper, ge_iff_le, Bool.and_eq_true, decide_eq_true_eq,
    Bool.not_eq_true, Bool.and_eq_false_iff, decide_eq_false_iff_not, not_le,
    uint32_le_iff, show UInt32.toNat 65 = 65 from rfl, show UInt32.toNat 90 = 90 from rfl]
  rcases h with ((hl | hd) | hc) | hc
  · simp only [Char.isLower, ge_iff_le, Bool.and_eq_true, decide_eq_true_eq, uint32_le_iff,
      show UInt32.toNat 97 = 97 from rfl, show UInt32.toNat 122 = 122 from rfl] at hl
    omega
  · simp only [Char.isDigit, ge_iff_le, Bool.and_eq_true, decide_eq_true_eq, uint32_le_iff,
      show UInt32.toNat 48 = 48 from rfl, show UInt32.toNat 57 = 57 from rfl] at hd
    omega
  · subst hc; decide
  · subst hc; decide

theorem list_all_not_eq_not_any (l : List Char) (p : Char → Bool) :
    l.all (fun c => !p c) = !(l.any p) := by
  induction l with
  | nil => rfl
  | cons c l ih => simp [List.all_cons, List.any_cons, ih, Bool.not_or]

theorem renameValidationError_isSome (old_name t : String) (ht : t ≠ "") :
    (renameValidationError old_name t).isSome =
      (decide (t.length > 80) ||
        (!(t.data.all renameCharOk) || t.data.contains '.')) := by
  unfold renameValidationError
  rw [if_neg ht]
  by_cases h80 : t.length > 80
  · rw [if_pos h80]
    simp [h80]
  · rw [if_neg h80]
    by_cases hcc : (!(t.data.all renameCharOk) || t.data.contains '.') = true
    · rw [if_pos hcc]
      rw [decide_eq_false h80, Bool.false_or]
      exact hcc.symm
    · rw [if_neg hcc]
      rw [decide_eq_false h80, Bool.false_or]
      exact (Bool.eq_false_iff.mpr hcc).symm

/-- C2 (amended): for a non-empty target name, the Approval Gate's rename
validation rejects exactly when the handler's local pre-remote validation
would reject, or the name contains no letter at all (Python's
`str.islower()` is false on names made only of digits, hyphens and
underscores, which the handler accepts), or the name duplicates one in the
snapshot. -/
theorem c2_gate_handler_rename_validation (t old_name : String)
    (snap : List SnapChannel) (ht : t ≠ "") :
    gateRenameBlocks t snap =
      ((renameValidationError old_name t).isSome ||
        t.data.all (fun c => !c.isAlpha) ||
        snap.any (fun ch => ch.name == t)) := by
  rw [renameValidationError_isSome old_name t ht]
  unfold gateRenameBlocks pyStrIsLower
  by_cases hall : t.data.all renameCharOk = true
  · have hdot : t.data.contains '.' = false := by
      by_contra hc
      rw [Bool.not_eq_false] at hc
      have := List.all_eq_true.mp hall '.' (List.mem_of_elem_eq_true hc)
      exact absurd this (by decide)
    have hsp : t.data.contains ' ' = false := by
      by_contra hc
      rw [Bool.not_eq_false] at hc
      have := List.all_eq_true.mp hall ' ' (List.mem_of_elem_eq_true hc)
      exact absurd this (by decide)
    have hup : t.data.all (fun c => !c.isUpper) = true := by
      rw [List.all_eq_true]
      intro c hcmem
      rw [renameCharOk_not_upper c (List.all_eq_true.mp hall c hcmem)]
      rfl
    have halpha : ∀ c ∈ t.data, c.isAlpha = c.isLower := by
      intro c hcmem
      have h2 := List.all_eq_true.mp hall c hcmem
      have h3 := renameCharOk_not_upper c h2
      simp [Char.isAlpha, h3]
    rw [hall, hdot, hsp, hup, list_all_not_eq_not_any]
    by_cases hA : t.data.any (fun c => c.isAlpha) = true
    · rw [hA]
      simp
    · rw [Bool.eq_false_iff.mpr hA]
      simp
  · rw [Bool.eq_false_iff.mpr hall]
    simp

/-- C2 (counterexample to the claim as stated): the target name `"123"`
(digits only) is judged invalid by the Approval Gate — `islower()` is false
for it — while the handler's pre-remote rename validation accepts it, even
with no duplicate in the snapshot; so the gate's name-validity checks are
not the same as the handler's. -/
theorem c2_counterexample :
    gateRenameBlocks "123" [] = true ∧
    (renameValidationError "old-name" "123").isSome = false := by
  constructor <;> decide

theorem c2_gate_handler_rename_validation_witness :
    gateRenameBlocks "proj-x" [{ id := "T", name := "general" }] =
      ((renameValidationError "old-name" "proj-x").isSome ||
        "proj-x".data.all (fun c => !c.isAlpha) ||
        [({ id := "T", name := "general" } : SnapChannel)].any
          (fun ch => ch.name == "proj-x")) :=
  c2_gate_handler_rename_validation "proj-x" "old-name"
    [{ id := "T", name := "general" }] (by decide)

/-! ### Execution Orchestrator (`channel_manager.py`): data model and the
priority sort. -/

/-- One spreadsheet row driving the batch (`channel` dict): the fields the
orchestrator's logic reads.  `Option` models a missing key; `.getD ""`
models Python's `.get(key, "")`, and Python truthiness of a string is
non-emptiness. -/
structure Channel where
  channel_id : Option String := none
  name : Option String := none
  is_private : Bool := false
  action : Option String := none
  target_value : Option String := none
  deriving DecidableEq, Repr

/-- `action_priority` (lines 260-271): missing/empty action 3, keep 2,
rename 0, archive 1, anything else 3; matching is on the lowercased
action. -/
def action_priority (channel : Channel) : Nat :=
  let action := channel.action.getD ""
  if action = "" then 3
  else
    let action := pyLower action
    if action = "keep" then 2
    else if action = "rename" then 0
    else if action = "archive" then 1
    else 3

/-- `ChannelAction.values()` (`channel_actions.py` lines 14-16). -/
def channelActionValues : List String :=
  ["keep", "archive", "rename", "new", "update_description"]

/-- The orchestrator's invalid-record test (line 280): missing or empty
`channel_id` or `name`. -/
def invalidChannel (ch : Channel) : Bool :=
  ch.channel_id.getD "" == "" || ch.name.getD "" == ""

/-- Insert a record into an already-sorted batch before the first record of
strictly greater priority (after all records of smaller-or-equal priority):
the insertion step of a stable sort by `action_priority`. -/
def pyInsert (x : Channel) : List Channel → List Channel
  | [] => [x]
  | y :: ys =>
    if action_priority x ≤ action_priority y then x :: y :: ys
    else y :: pyInsert x ys

/-- `sorted(channels, key=action_priority)` (line 273).  Python's `sorted`
is a stable sort; a stable sort's output is uniquely determined by the key
function, and this insertion sort computes it. -/
def pySorted : List Channel → List Channel
  | [] => []
  | x :: xs => pyInsert x (pySorted xs)

theorem pyInsert_perm (x : Channel) : ∀ l : List Channel, (pyInsert x l).Perm (x :: l) := by
  intro l
  induction l with
  | nil => exact List.Perm.refl _
  | cons y ys ih =>
    unfold pyInsert
    by_cases h : action_priority x ≤ action_priority y
    · rw [if_pos h]
    · rw [if_neg h]
      exact (ih.cons y).trans (List.Perm.swap x y ys)

theorem pySorted_perm : ∀ l : List Channel, (pySorted l).Perm l := by
  intro l
  induction l with
  | nil => exact List.Perm.refl _
  | cons x xs ih =>
    unfold pySorted
    exact (pyInsert_perm x (pySorted xs)).trans (ih.cons x)

theorem pyInsert_pairwise (x : Channel) :
    ∀ l : List Channel,
      List.Pairwise (fun a b => action_priority a ≤ action_priority b) l →
      List.Pairwise (fun a b => action_priority a ≤ action_priority b) (pyInsert x l) := by
  intro l
  induction l with
  | nil => intro _; exact List.pairwise_singleton _ x
  | cons y ys ih =>
    intro hp
    unfold pyInsert
    by_cases h : action_priority x ≤ action_priority y
    · rw [if_pos h]
      refine List.Pairwise.cons ?_ hp
      intro b hb
      rcases List.mem_cons.mp hb with hb2 | hb2
      · subst hb2; exact h
      · exact h.trans (List.rel_of_pairwise_cons hp hb2)
    · rw [if_neg h]
      have hyx : action_priority y ≤ action_priority x := Nat.le_of_lt (Nat.lt_of_not_le h)
      refine List.Pairwise.cons ?_ (ih hp.of_cons)
      intro b hb
      rcases List.mem_cons.mp ((pyInsert_perm x ys).mem_iff.mp hb) with hb2 | hb2
      · subst hb2; exact hyx
      · exact List.rel_of_pairwise_cons hp hb2

theorem pySorted_pairwise (l : List Channel) :
    List.Pairwise (fun a b => action_priority a ≤ action_priority b) (pySorted l) := by
  induction l with
  | nil => exact List.Pairwise.nil
  | cons x xs ih => exact pyInsert_pairwise x (pySorted xs) ih

theorem pyInsert_filter_key (x : Channel) (p : Nat) :
    ∀ l : List Channel,
      (pyInsert x l).filter (fun ch => action_priority ch == p) =
        if action_priority x == p then
          x :: l.filter (fun ch => action_priority ch == p)
        else l.filter (fun ch => action_priority ch == p) := by
  intro l
  induction l with
  | nil =>
    unfold pyInsert
    by_cases h : action_priority x == p
    · simp [List.filter_singleton, h]
    · simp [List.filter_singleton, h]
  | cons y ys ih =>
    unfold pyInsert
    by_cases hle : action_priority x ≤ action_priority y
    · rw [if_pos hle, List.filter_cons]
    · rw [if_neg hle, List.filter_cons, ih]
      have hlt : action_priority y < action_priority x := Nat.lt_of_not_le hle
      by_cases hx : action_priority x == p
      · have hxp : action_priority x = p := by simpa using hx
        have hy : (action_priority y == p) = false := by
          simp only [beq_eq_false_iff_ne, ne_eq]
          omega
        simp [List.filter_cons, hx, hy]
      · simp [List.filter_cons, hx]

theorem pySorted_filter_key (p : Nat) :
    ∀ l : List Channel,
      (pySorted l).filter (fun ch => action_priority ch == p) =
        l.filter (fun ch => action_priority ch == p) := by
  intro l
  induction l with
  | nil => rfl
  | cons x xs ih =>
    unfold pySorted
    rw [pyInsert_filter_key, ih, List.filter_cons]

/-- C4: the orchestrator's sort of the batch by `action_priority` is a
permutation of the batch, is sorted so that in the processed order every
rename (priority 0) precedes every archive (priority 1), which precedes
every keep (priority 2) and missing/unknown action (priority 3), and is
stable: for every priority the subsequence of records of that priority is
exactly the original one, so records of equal priority retain their
relative order. -/
theorem c4_sort_stable_priority (channels : List Channel) :
    (pySorted channels).Perm channels ∧
    List.Pairwise (fun a b => action_priority a ≤ action_priority b) (pySorted channels) ∧
    (∀ p : Nat, (pySorted channels).filter (fun ch => action_priority ch == p) =
      channels.filter (fun ch => action_priority ch == p)) ∧
    (∀ i j : Fin (pySorted channels).length, i < j →
      action_priority ((pySorted channels).get i) ≤
        action_priority ((pySorted channels).get j)) :=
  ⟨pySorted_perm channels, pySorted_pairwise channels,
   fun p => pySorted_filter_key p channels,
   fun i j hij => List.pairwise_iff_get.mp (pySorted_pairwise channels) i j hij⟩

/-- A concrete batch for the C4 witness: an archive record followed by a
rename record followed by a keep record. -/
def c4Channels : List Channel :=
  [{ channel_id := some "C1", name := some "alpha", action := some "archive" },
   { channel_id := some "C2", name := some "beta", action := some "rename",
     target_value := some "beta-2" },
   { channel_id := some "C3", name := some "gamma", action := some "keep" }]

theorem c4_sort_stable_priority_witness :
    (pySorted c4Channels).Perm c4Channels ∧
    (pySorted c4Channels).filter (fun ch => action_priority ch == 1) =
      c4Channels.filter (fun ch => action_priority ch == 1) ∧
    action_priority ((pySorted c4Channels).get ⟨0, by decide⟩) ≤
      action_priority ((pySorted c4Channels).get ⟨2, by decide⟩) :=
  ⟨(c4_sort_stable_priority c4Channels).1,
   (c4_sort_stable_priority c4Channels).2.2.1 1,
   (c4_sort_stable_priority c4Channels).2.2.2 ⟨0, by decide⟩ ⟨2, by decide⟩ (by decide)⟩

/-! ### Approval Gate (`get_user_approval`, `channel_manager.py` lines
84-221) and the orchestrator loop (`execute_channel_actions`, lines
223-384). -/

/-- The operator's answer to one prompt: `y` (approve), `n` (skip) or `q`
(abort, raised as `KeyboardInterrupt`).  The source re-prompts until one of
the three is typed, so the decision is modelled directly. -/
inductive Decision where
  | approve
  | skip
  | abort
  deriving DecidableEq, Repr

/-- How one `get_user_approval` call ends: approved, rejected (an `n`
answer or an auto-reject before the prompt), abort (`q`, raised as
`KeyboardInterrupt`), or an unexpected exception propagating out. -/
inductive GateOut where
  | approve
  | reject
  | abort
  | raised (msg : String)
  deriving DecidableEq, Repr

/-- The environment of one record's processing: the remote responses seen
by the gate (`get_channel_info` on the source channel, on the resolved
target, and the `conversations_list` fallback), the operator's decision if
prompted, the pre-execution verification response, and the remote behaviour
for the handler's own calls. -/
structure RecordEnv where
  gateInfo : Except PyExn ChannelInfo
  gateTargetInfo : Except PyExn ChannelInfo
  gateList : Except PyExn (List SnapChannel)
  decision : Decision
  verifyInfo : Except PyExn ChannelInfo
  act : ActionClient

/-- The auto-decide part of the gate between the info display and the
prompt (lines 127-203): target-channel resolution and display for
archive-with-redirect (auto-reject when the target cannot be resolved), and
the rename validation (auto-reject on any validation failure).  `none`
means fall through to the prompt.  `get_channel_info` swallows
`SlackApiError` (returning `{}`), so only unexpected exceptions propagate
from it; the single-call `conversations_list` fallback is used when the
snapshot list is falsy (missing or empty). -/
def gateAuto (e : RecordEnv) (action : String) (target_value : Option String)
    (current_channels : List SnapChannel) : Option GateOut × List Eff :=
  let tv := target_value.getD ""
  if action = "archive" ∧ tv ≠ "" then
    let tn := pyLstripHash tv
    if current_channels.isEmpty then
      match e.gateList with
      | .error (.slackApi _) => (some .reject, [.listCall])
      | .error (.other m) => (some (.raised m), [.listCall])
      | .ok chans =>
        match chans.find? (fun ch => ch.name == tn) with
        | none => (some .reject, [.listCall])
        | some t =>
          match e.gateTargetInfo with
          | .error (.other m) => (some (.raised m), [.listCall, .infoCall t.id])
          | _ => (none, [.listCall, .infoCall t.id])
    else
      match current_channels.find? (fun ch => ch.name == tn) with
      | none => (some .reject, [])
      | some t =>
        match e.gateTargetInfo with
        | .error (.other m) => (some (.raised m), [.infoCall t.id])
        | _ => (none, [.infoCall t.id])
  else if action = "rename" ∧ tv ≠ "" then
    if current_channels.isEmpty then
      if gateRenameBlocks tv [] then (some .reject, [])
      else
        match e.gateList with
        | .ok chans =>
          if chans.any (fun ch => ch.name == tv) then (some .reject, [.listCall])
          else (none, [.listCall])
        | .error (.slackApi _) => (none, [.listCall])
        | .error (.other m) => (some (.raised m), [.listCall])
    else
      if gateRenameBlocks tv current_channels then (some .reject, [])
      else (none, [])
  else (none, [])

/-- `get_user_approval` (lines 84-221): fetch and display the channel info
(`SlackApiError` there is swallowed by `get_channel_info`), run the
auto-decide checks, then prompt the operator; `q` raises
`KeyboardInterrupt`, modelled as `GateOut.abort`. -/
def get_user_approval (e : RecordEnv) (channel_id : String) (action : String)
    (target_value : Option String) (current_channels : List SnapChannel) :
    GateOut × List Eff :=
  match e.gateInfo with
  | .error (.other m) => (.raised m, [.infoCall channel_id])
  | _ =>
    match gateAuto e action target_value current_channels with
    | (some g, tr) => (g, .infoCall channel_id :: tr)
    | (none, tr) =>
      (match e.decision with
       | .approve => .approve
       | .skip => .reject
       | .abort => .abort,
       .infoCall channel_id :: tr ++ [.prompt])

/-- The orchestrator's running totals and result accumulator. -/
structure OrchSt where
  successful : Nat := 0
  failed : Nat := 0
  skipped : Nat := 0
  lastAction : Option String := none
  successfulIds : List String := []
  deriving DecidableEq, Repr

/-- One loop iteration either continues with the new state or halts the
whole batch (operator abort). -/
inductive StepRes where
  | cont (st : OrchSt)
  | halt (st : OrchSt)
  deriving DecidableEq, Repr

/-- The live (non-dry-run) part of one iteration (lines 326-363): re-verify
the channel's state via `get_channel_info` (a swallowed `SlackApiError`
yields `{}`, "no longer exists"), fail on archived or renamed channels —
these three `continue` without the pacing sleep — then run the handler; an
unexpected exception anywhere in the block (including `result.success` on a
Python `None` result) is caught at line 358 and counts as failed; the
pacing sleep runs after the handler (and after the caught exception). -/
def orchExec (e : RecordEnv) (st : OrchSt) (ch : Channel) (action : String) :
    StepRes × List Eff :=
  let cid := ch.channel_id.getD ""
  match e.verifyInfo with
  | .error (.slackApi _) =>
    (.cont { st with failed := st.failed + 1 }, [.infoCall cid])
  | .error (.other _) =>
    (.cont { st with failed := st.failed + 1 }, [.infoCall cid, .sleepCall 1])
  | .ok info =>
    if info.is_archived then
      (.cont { st with failed := st.failed + 1 }, [.infoCall cid])
    else if info.name ≠ ch.name.getD "" then
      (.cont { st with failed := st.failed + 1 }, [.infoCall cid])
    else
      let res := execute_action e.act cid (ch.name.getD "") action
        (some (ch.target_value.getD "")) none
      match res.1 with
      | some r =>
        if r.success then
          (.cont { st with successful := st.successful + 1,
                           lastAction := some action,
                           successfulIds := st.successfulIds ++ [cid] },
           .infoCall cid :: res.2 ++ [.sleepCall 1])
        else
          (.cont { st with failed := st.failed + 1 },
           .infoCall cid :: res.2 ++ [.sleepCall 1])
      | none =>
        (.cont { st with failed := st.failed + 1 },
         .infoCall cid :: res.2 ++ [.sleepCall 1])

/-- One iteration of the orchestrator's `for` loop (lines 278-363): skip
invalid records (counted), pass over absent/keep actions silently
(uncounted), skip unsupported actions (counted), consult the gate
(`KeyboardInterrupt` breaks the loop, other gate exceptions count as
failed), then either synthesize a dry-run success or verify and execute. -/
def orchStep (dryRun : Bool) (current_channels : List SnapChannel) (e : RecordEnv)
    (st : OrchSt) (ch : Channel) : StepRes × List Eff :=
  if invalidChannel ch then
    (.cont { st with skipped := st.skipped + 1 }, [])
  else
    let action := pyLower (ch.action.getD "")
    if action = "" ∨ action = "keep" then (.cont st, [])
    else if ¬ (channelActionValues.contains action) then
      (.cont { st with skipped := st.skipped + 1 }, [])
    else
      match get_user_approval e (ch.channel_id.getD "") action ch.target_value
        current_channels with
      | (.abort, tr) => (.halt st, tr)
      | (.reject, tr) => (.cont { st with skipped := st.skipped + 1 }, tr)
      | (.raised _, tr) => (.cont { st with failed := st.failed + 1 }, tr)
      | (.approve, tr) =>
        if dryRun then (.cont { st with successful := st.successful + 1 }, tr)
        else
          let rest := orchExec e st ch action
          (rest.1, tr ++ rest.2)

/-- The result of one orchestration run: the final accumulator (printed as
the Execution Summary and carrying the returned successful-ID list),
whether the batch was halted by an operator abort, and the trace of events
tagged with the index of the record (in processed order) that produced
them. -/
structure RunOut where
  st : OrchSt
  halted : Bool
  trace : List (Nat × Eff)
  deriving DecidableEq, Repr

/-- The orchestrator's `for` loop over the sorted batch, threading the
accumulator; a halt stops consuming records, and the summary (the final
state) is produced unconditionally — the source's `finally` block. -/
def orchList (dryRun : Bool) (snap : List SnapChannel) (env : Nat → RecordEnv) :
    Nat → OrchSt → List Channel → RunOut
  | _, st, [] => { st := st, halted := false, trace := [] }
  | i, st, ch :: rest =>
    match orchStep dryRun snap (env i) st ch with
    | (.halt st2, tr) => { st := st2, halted := true, trace := tr.map (Prod.mk i) }
    | (.cont st2, tr) =>
      let o := orchList dryRun snap env (i + 1) st2 rest
      { st := o.st, halted := o.halted, trace := tr.map (Prod.mk i) ++ o.trace }

/-- `execute_channel_actions` (lines 223-384): sort the batch by action
priority, then process each record in order against the snapshot
(`get_all_channels`, modelled as the given `current_channels`).  The
returned value carries the final counts (the printed summary) and
`st.successfulIds`, the list the Python function returns. -/
def execute_channel_actions (dryRun : Bool) (env : Nat → RecordEnv)
    (current_channels : List SnapChannel) (channels : List Channel) : RunOut :=
  orchList dryRun current_channels env 0 {} (pySorted channels)

/-! ### Claim C1 -/

theorem orchList_all_keep (dryRun : Bool) (snap : List SnapChannel)
    (env : Nat → RecordEnv) :
    ∀ (l : List Channel) (i : Nat) (st : OrchSt),
      (∀ ch ∈ l, pyLower (ch.action.getD "") = "keep") →
      orchList dryRun snap env i st l =
        { st := { st with skipped := st.skipped + l.countP invalidChannel },
          halted := false, trace := [] } := by
  intro l
  induction l with
  | nil =>
    intro i st _
    simp [orchList, List.countP_nil]
  | cons ch rest ih =>
    intro i st hkeep
    have hch := hkeep ch (List.mem_cons_self ch rest)
    have hrest : ∀ c ∈ rest, pyLower (c.action.getD "") = "keep" :=
      fun c hc => hkeep c (List.mem_cons_of_mem ch hc)
    unfold orchList
    by_cases hinv : invalidChannel ch
    · rw [show orchStep dryRun snap (env i) st ch =
          (.cont { st with skipped := st.skipped + 1 }, []) by
        unfold orchStep; rw [if_pos hinv]]
      dsimp only
      rw [ih (i + 1) _ hrest]
      simp [List.countP_cons, hinv, Nat.add_assoc, Nat.add_comm 1 _]
    · rw [show orchStep dryRun snap (env i) st ch = (.cont st, []) by
        unfold orchStep
        rw [if_neg hinv, hch, if_pos (Or.inr rfl)]]
      dsimp only
      rw [ih (i + 1) _ hrest]
      simp [List.countP_cons, hinv]

/-- C1 (amended): a batch in which every record's action is `keep` mutates
nothing — the run performs no remote call, no prompt and no sleep at all —
and yields successful = 0, failed = 0 and skipped equal to the number of
invalid records (those missing an identity field or name); valid keep
records are passed over silently without incrementing any counter, so for
an all-valid all-keep batch the summary is 0/0/0, not skipped = N. -/
theorem c1_all_keep_run (dryRun : Bool) (env : Nat → RecordEnv)
    (snap : List SnapChannel) (channels : List Channel)
    (hkeep : ∀ ch ∈ channels, pyLower (ch.action.getD "") = "keep") :
    execute_channel_actions dryRun env snap channels =
      { st := { successful := 0, failed := 0,
                skipped := channels.countP invalidChannel,
                lastAction := none, successfulIds := [] },
        halted := false, trace := [] } := by
  unfold execute_channel_actions
  rw [orchList_all_keep dryRun snap env (pySorted channels) 0 {}
    (fun ch hch => hkeep ch ((pySorted_perm channels).mem_iff.mp hch))]
  rw [(pySorted_perm channels).countP_eq invalidChannel]
  simp

/-- A neutral remote behaviour for orchestrator claims. -/
def baseClient : ActionClient :=
  { info := .ok { name := "alpha" }
  , listPages := [.ok { channels := [] }]
  , join := .ok {}
  , postMessage := .ok ()
  , archive := .ok {}
  , rename := .ok { name := "x" }
  , setPurpose := fun _ => .ok {}
  , leave := .ok () }

/-- A neutral record-processing environment for orchestrator claims. -/
def baseEnv : RecordEnv :=
  { gateInfo := .ok {}, gateTargetInfo := .ok {}, gateList := .ok []
  , decision := .skip, verifyInfo := .ok { name := "alpha" }, act := baseClient }

/-- C1 (counterexample to the claim as stated): a batch of one valid record
with action `keep` yields skipped = 0, not skipped = N = 1 — the loop
passes over keep records without incrementing any counter (line 288-289 of
`channel_manager.py` is a bare `continue`). -/
theorem c1_counterexample :
    (execute_channel_actions false (fun _ => baseEnv) []
      [{ channel_id := some "C1", name := some "alpha", action := some "keep" }]).st =
      { successful := 0, failed := 0, skipped := 0,
        lastAction := none, successfulIds := [] } ∧
    (execute_channel_actions false (fun _ => baseEnv) []
      [{ channel_id := some "C1", name := some "alpha", action := some "keep" }]).st.skipped
      ≠ 1 := by
  constructor <;> decide

theorem c1_all_keep_run_witness :
    execute_channel_actions false (fun _ => baseEnv) []
      [{ channel_id := some "C1", name := some "alpha", action := some "keep" },
       { channel_id := none, name := some "beta", action := some "KEEP" }] =
      { st := { successful := 0, failed := 0, skipped := 1,
                lastAction := none, successfulIds := [] },
        halted := false, trace := [] } := by
  have h := c1_all_keep_run false (fun _ => baseEnv) []
    [{ channel_id := some "C1", name := some "alpha", action := some "keep" },
     { channel_id := none, name := some "beta", action := some "KEEP" }]
    (by decide)
  rw [h]
  decide

/-! ### Claim C9 -/

/-- The state carried by a step result. -/
def StepRes.state : StepRes → OrchSt
  | .cont st => st
  | .halt st => st

theorem orchStep_dry_ids (snap : List SnapChannel) (e : RecordEnv)
    (st : OrchSt) (ch : Channel) :
    ((orchStep true snap e st ch).1.state).successfulIds = st.successfulIds := by
  unfold orchStep
  by_cases hinv : invalidChannel ch
  · rw [if_pos hinv]; rfl
  · rw [if_neg hinv]
    dsimp only
    by_cases hk : pyLower (ch.action.getD "") = "" ∨ pyLower (ch.action.getD "") = "keep"
    · rw [if_pos hk]; rfl
    · rw [if_neg hk]
      by_cases hv : ¬ (channelActionValues.contains (pyLower (ch.action.getD "")))
      · rw [if_pos hv]; rfl
      · rw [if_neg hv]
        match get_user_approval e (ch.channel_id.getD "") (pyLower (ch.action.getD ""))
          ch.target_value snap with
        | (.abort, tr) => rfl
        | (.reject, tr) => rfl
        | (.raised m, tr) => rfl
        | (.approve, tr) => rfl

theorem orchList_dry_ids (snap : List SnapChannel) (env : Nat → RecordEnv) :
    ∀ (l : List Channel) (i : Nat) (st : OrchSt),
      (orchList true snap env i st l).st.successfulIds = st.successfulIds := by
  intro l
  induction l with
  | nil => intro i st; rfl
  | cons ch rest ih =>
    intro i st
    unfold orchList
    have hstep := orchStep_dry_ids snap (env i) st ch
    revert hstep
    match orchStep true snap (env i) st ch with
    | (.halt st2, tr) => exact fun hstep => hstep
    | (.cont st2, tr) =>
      intro hstep
      dsimp only
      rw [ih (i + 1) st2]
      exact hstep

/-- C9: with dryRun = true the list of successfully-mutated channel IDs
returned by the run is always empty — dry-run successes are counted in the
summary but no channel ID is ever recorded. -/
theorem c9_dry_run_ids_empty (env : Nat → RecordEnv) (snap : List SnapChannel)
    (channels : List Channel) :
    (execute_channel_actions true env snap channels).st.successfulIds = [] :=
  orchList_dry_ids snap env (pySorted channels) 0 {}

/-! ### Claim C7 -/

/-- The effects the auto-decide part of the gate can produce: listing and
info reads only. -/
def gateEffOk : Eff → Bool
  | .listCall => true
  | .infoCall _ => true
  | _ => false

theorem gateAuto_spec (e : RecordEnv) (action : String) (tv : Option String)
    (s : List SnapChannel) :
    ((gateAuto e action tv s).2).all gateEffOk = true ∧
    ∀ g, (gateAuto e action tv s).1 = some g →
      g ≠ GateOut.approve ∧ g ≠ GateOut.abort := by
  unfold gateAuto
  by_cases h1 : action = "archive" ∧ (tv.getD "") ≠ ""
  · rw [if_pos h1]
    by_cases h2 : s.isEmpty
    · rw [if_pos h2]
      rcases hgl : e.gateList with (e2 | m) | chans <;> simp only [hgl]
      · exact ⟨rfl, fun g hg => by cases hg; exact ⟨(fun hc => nomatch hc), (fun hc => nomatch hc)⟩⟩
      · exact ⟨rfl, fun g hg => by cases hg; exact ⟨(fun hc => nomatch hc), (fun hc => nomatch hc)⟩⟩
      · rcases hf : chans.find? (fun ch => ch.name == pyLstripHash (tv.getD "")) with _ | t <;>
          simp only [hf]
        · exact ⟨rfl, fun g hg => by cases hg; exact ⟨(fun hc => nomatch hc), (fun hc => nomatch hc)⟩⟩
        · rcases hti : e.gateTargetInfo with (e2 | m) | i <;> simp only [hti]
          · exact ⟨rfl, fun g hg => nomatch hg⟩
          · exact ⟨rfl, fun g hg => by cases hg; exact ⟨(fun hc => nomatch hc), (fun hc => nomatch hc)⟩⟩
          · exact ⟨rfl, fun g hg => nomatch hg⟩
    · rw [if_neg h2]
      rcases hf : s.find? (fun ch => ch.name == pyLstripHash (tv.getD "")) with _ | t <;>
        simp only [hf]
      · exact ⟨rfl, fun g hg => by cases hg; exact ⟨(fun hc => nomatch hc), (fun hc => nomatch hc)⟩⟩
      · rcases hti : e.gateTargetInfo with (e2 | m) | i <;> simp only [hti]
        · exact ⟨rfl, fun g hg => nomatch hg⟩
        · exact ⟨rfl, fun g hg => by cases hg; exact ⟨(fun hc => nomatch hc), (fun hc => nomatch hc)⟩⟩
        · exact ⟨rfl, fun g hg => nomatch hg⟩
  · rw [if_neg h1]
    by_cases h3 : action = "rename" ∧ (tv.getD "") ≠ ""
    · rw [if_pos h3]
      by_cases h2 : s.isEmpty
      · rw [if_pos h2]
        by_cases h4 : gateRenameBlocks (tv.getD "") []
        · rw [if_pos h4]
          exact ⟨rfl, fun g hg => by cases hg; exact ⟨(fun hc => nomatch hc), (fun hc => nomatch hc)⟩⟩
        · rw [if_neg h4]
          rcases hgl : e.gateList with (e2 | m) | chans <;> simp only [hgl]
          · exact ⟨rfl, fun g hg => nomatch hg⟩
          · exact ⟨rfl, fun g hg => by cases hg; exact ⟨(fun hc => nomatch hc), (fun hc => nomatch hc)⟩⟩
          · by_cases h5 : chans.any (fun ch => ch.name == tv.getD "")
            · rw [if_pos h5]
              exact ⟨rfl, fun g hg => by cases hg; exact ⟨(fun hc => nomatch hc), (fun hc => nomatch hc)⟩⟩
            · rw [if_neg h5]
              exact ⟨rfl, fun g hg => nomatch hg⟩
      · rw [if_neg h2]
        by_cases h4 : gateRenameBlocks (tv.getD "") s
        · rw [if_pos h4]
          exact ⟨rfl, fun g hg => by cases hg; exact ⟨(fun hc => nomatch hc), (fun hc => nomatch hc)⟩⟩
        · rw [if_neg h4]
          exact ⟨rfl, fun g hg => nomatch hg⟩
    · rw [if_neg h3]
      exact ⟨rfl, fun g hg => nomatch hg⟩

theorem gateEffOk_not_mutating (eff : Eff) (h : gateEffOk eff = true) :
    eff.isMutating = false := by
  cases eff <;> first | rfl | exact absurd h (by simp [gateEffOk])

theorem gateEffOk_not_prompt (eff : Eff) (h : gateEffOk eff = true) :
    eff ≠ Eff.prompt := by
  intro hcon
  rw [hcon] at h
  exact absurd h (by decide)

theorem gate_not_mutating (e : RecordEnv) (cid action : String)
    (tv : Option String) (s : List SnapChannel) :
    ∀ eff ∈ (get_user_approval e cid action tv s).2, eff.isMutating = false := by
  unfold get_user_approval
  have hga := (gateAuto_spec e action tv s).1
  rw [List.all_eq_true] at hga
  rcases hau : gateAuto e action tv s with ⟨og, tr⟩
  rw [hau] at hga
  rcases og with _ | g <;>
    rcases hgi : e.gateInfo with (e2 | m) | i <;> simp only [hgi, hau]
  · intro eff heff
    rcases List.mem_cons.mp heff with rfl | h2
    · rfl
    · rcases List.mem_append.mp h2 with h3 | h3
      · exact gateEffOk_not_mutating eff (hga eff h3)
      · rcases List.mem_singleton.mp h3 with rfl
        rfl
  · intro eff heff
    rcases List.mem_singleton.mp heff with rfl
    rfl
  · intro eff heff
    rcases List.mem_cons.mp heff with rfl | h2
    · rfl
    · rcases List.mem_append.mp h2 with h3 | h3
      · exact gateEffOk_not_mutating eff (hga eff h3)
      · rcases List.mem_singleton.mp h3 with rfl
        rfl
  · intro eff heff
    rcases List.mem_cons.mp heff with rfl | h2
    · rfl
    · exact gateEffOk_not_mutating eff (hga eff h2)
  · intro eff heff
    rcases List.mem_singleton.mp heff with rfl
    rfl
  · intro eff heff
    rcases List.mem_cons.mp heff with rfl | h2
    · rfl
    · exact gateEffOk_not_mutating eff (hga eff h2)

theorem promptPred_infoCall (x : String) (d : Decision) :
    (Eff.infoCall x == Eff.prompt && (d == Decision.approve)) = false := rfl

theorem promptPred_prompt (d : Decision) :
    (Eff.prompt == Eff.prompt && (d == Decision.approve)) = (d == Decision.approve) := rfl

/-- The prompt-count of one gate call, weighted by an approve decision,
equals 1 exactly when the gate approved. -/
theorem gate_prompt_count (e : RecordEnv) (cid action : String)
    (tv : Option String) (s : List SnapChannel) :
    ((get_user_approval e cid action tv s).2).countP
        (fun eff => eff == Eff.prompt && (e.decision == Decision.approve)) =
      (if (get_user_approval e cid action tv s).1 = GateOut.approve then 1 else 0) := by
  unfold get_user_approval
  have hga := (gateAuto_spec e action tv s).1
  have hne := (gateAuto_spec e action tv s).2
  rw [List.all_eq_true] at hga
  rcases hau : gateAuto e action tv s with ⟨og, tr⟩
  rw [hau] at hga hne
  have hzero : tr.countP (fun eff => eff == Eff.prompt && (e.decision == Decision.approve)) = 0 := by
    rw [List.countP_eq_zero]
    intro eff heff hcon
    rw [Bool.and_eq_true, beq_iff_eq] at hcon
    exact absurd hcon.1 (gateEffOk_not_prompt eff (hga eff heff))
  rcases og with _ | g <;>
    rcases hgi : e.gateInfo with (e2 | m) | i <;> simp only [hgi, hau]
  · simp only [List.countP_cons, List.countP_append, List.countP_nil,
      promptPred_infoCall, promptPred_prompt]
    rcases hd : e.decision
    · simp [hd, hzero]
      exact fun a ha => gateEffOk_not_prompt a (hga a ha)
    · simp [hd, hzero]
    · simp [hd, hzero]
  · rw [if_neg (fun hc => nomatch hc)]
    simp [List.countP_cons, promptPred_infoCall]
  · simp only [List.countP_cons, List.countP_append, List.countP_nil,
      promptPred_infoCall, promptPred_prompt]
    rcases hd : e.decision
    · simp [hd, hzero]
      exact fun a ha => gateEffOk_not_prompt a (hga a ha)
    · simp [hd, hzero]
    · simp [hd, hzero]
  · rw [if_neg ((hne g rfl).1)]
    simp [List.countP_cons, promptPred_infoCall, hzero]
  · rw [if_neg (fun hc => nomatch hc)]
    simp [List.countP_cons, promptPred_infoCall]
  · rw [if_neg ((hne g rfl).1)]
    simp [List.countP_cons, promptPred_infoCall, hzero]

theorem orchStep_dry_spec (snap : List SnapChannel) (e : RecordEnv)
    (st : OrchSt) (ch : Channel) :
    (∀ eff ∈ (orchStep true snap e st ch).2, eff.isMutating = false) ∧
    ((orchStep true snap e st ch).1.state).successful =
      st.successful + (orchStep true snap e st ch).2.countP
        (fun eff => eff == Eff.prompt && (e.decision == Decision.approve)) := by
  unfold orchStep
  by_cases hinv : invalidChannel ch
  · rw [if_pos hinv]
    exact ⟨fun eff heff => absurd heff (List.not_mem_nil eff), by simp [StepRes.state]⟩
  · rw [if_neg hinv]
    dsimp only
    by_cases hk : pyLower (ch.action.getD "") = "" ∨ pyLower (ch.action.getD "") = "keep"
    · rw [if_pos hk]
      exact ⟨fun eff heff => absurd heff (List.not_mem_nil eff), by simp [StepRes.state]⟩
    · rw [if_neg hk]
      by_cases hv : ¬ channelActionValues.contains (pyLower (ch.action.getD ""))
      · rw [if_pos hv]
        exact ⟨fun eff heff => absurd heff (List.not_mem_nil eff), by simp [StepRes.state]⟩
      · rw [if_neg hv]
        have hmut := gate_not_mutating e (ch.channel_id.getD "")
          (pyLower (ch.action.getD "")) ch.target_value snap
        have hcnt := gate_prompt_count e (ch.channel_id.getD "")
          (pyLower (ch.action.getD "")) ch.target_value snap
        rcases hgate : get_user_approval e (ch.channel_id.getD "")
          (pyLower (ch.action.getD "")) ch.target_value snap with ⟨g, tr⟩
        rw [hgate] at hmut hcnt
        dsimp only at hmut hcnt
        rcases g with _ | _ | _ | m <;> simp only [hgate]
        · rw [if_pos rfl] at hcnt
          refine ⟨fun eff heff => hmut eff heff, ?_⟩
          rw [if_pos trivial]
          dsimp only [StepRes.state]
          rw [hcnt]
        · rw [if_neg (by decide)] at hcnt
          exact ⟨fun eff heff => hmut eff heff, by simp [StepRes.state, hcnt]⟩
        · rw [if_neg (by decide)] at hcnt
          exact ⟨fun eff heff => hmut eff heff, by simp [StepRes.state, hcnt]⟩
        · rw [if_neg (fun hc => nomatch hc)] at hcnt
          exact ⟨fun eff heff => hmut eff heff, by simp [StepRes.state, hcnt]⟩

theorem orchList_dry_spec (snap : List SnapChannel) (env : Nat → RecordEnv) :
    ∀ (l : List Channel) (i : Nat) (st : OrchSt),
      (∀ ie ∈ (orchList true snap env i st l).trace, ie.2.isMutating = false) ∧
      (orchList true snap env i st l).st.successful =
        st.successful + (orchList true snap env i st l).trace.countP
          (fun ie => ie.2 == Eff.prompt && ((env ie.1).decision == Decision.approve)) := by
  intro l
  induction l with
  | nil =>
    intro i st
    exact ⟨fun ie h => absurd h (List.not_mem_nil ie), by simp [orchList]⟩
  | cons ch rest ih =>
    intro i st
    unfold orchList
    have hstep := orchStep_dry_spec snap (env i) st ch
    rcases hs : orchStep true snap (env i) st ch with ⟨res, tr⟩
    rw [hs] at hstep
    have hconv : List.countP
        ((fun ie : Nat × Eff => ie.2 == Eff.prompt &&
          ((env ie.1).decision == Decision.approve)) ∘ Prod.mk i) tr =
        List.countP (fun eff => eff == Eff.prompt &&
          ((env i).decision == Decision.approve)) tr := rfl
    rcases res with st2 | st2 <;> simp only [hs]
    · obtain ⟨ih1, ih2⟩ := ih (i + 1) st2
      constructor
      · intro ie hie
        rcases List.mem_append.mp hie with h3 | h3
        · obtain ⟨eff, heff, rfl⟩ := List.mem_map.mp h3
          exact hstep.1 eff heff
        · exact ih1 ie h3
      · rw [List.countP_append, ih2, List.countP_map, hconv]
        have h2 := hstep.2
        simp only [StepRes.state] at h2
        omega
    · constructor
      · intro ie hie
        obtain ⟨eff, heff, rfl⟩ := List.mem_map.mp hie
        exact hstep.1 eff heff
      · rw [List.countP_map, hconv]
        have h2 := hstep.2
        simp only [StepRes.state] at h2
        exact h2

/-- C7: in a dry run no mutating remote call (archive, rename, set-purpose,
join, leave, post-message) is ever issued — every traced event of the run
is a read, a prompt or a sleep — yet the summary's successful count equals
the number of prompts the operator answered with approve, i.e. every
approved record increments the successful count as if the action had been
performed. -/
theorem c7_dry_run_no_mutation (env : Nat → RecordEnv) (snap : List SnapChannel)
    (channels : List Channel) :
    (∀ ie ∈ (execute_channel_actions true env snap channels).trace,
      ie.2.isMutating = false) ∧
    (execute_channel_actions true env snap channels).st.successful =
      (execute_channel_actions true env snap channels).trace.countP
        (fun ie => ie.2 == Eff.prompt && ((env ie.1).decision == Decision.approve)) := by
  have h := orchList_dry_spec snap env (pySorted channels) 0 {}
  refine ⟨h.1, ?_⟩
  have h2 := h.2
  simpa using h2

/-- A record environment whose operator approves every prompt. -/
def approveEnv : RecordEnv := { baseEnv with decision := .approve }

/-- A one-record rename batch for the C7 witness. -/
def c7Batch : List Channel :=
  [{ channel_id := some "C2", name := some "beta", action := some "rename",
     target_value := some "beta-2" }]

theorem c7_dry_run_no_mutation_witness :
    (((0 : Nat), Eff.prompt) ∈
      (execute_channel_actions true (fun _ => approveEnv) [] c7Batch).trace ∧
     Eff.prompt.isMutating = false) ∧
    (execute_channel_actions true (fun _ => approveEnv) [] c7Batch).st.successful =
      (execute_channel_actions true (fun _ => approveEnv) [] c7Batch).trace.countP
        (fun ie => ie.2 == Eff.prompt &&
          (((fun _ => approveEnv) ie.1 : RecordEnv).decision == Decision.approve)) :=
  ⟨⟨by decide,
    (c7_dry_run_no_mutation (fun _ => approveEnv) [] c7Batch).1
      (0, Eff.prompt) (by decide)⟩,
   (c7_dry_run_no_mutation (fun _ => approveEnv) [] c7Batch).2⟩

/-! ### Claim C6 -/

/-- A gate call that ends in abort was an operator `q` at the prompt: the
decision stream said abort and the prompt was reached (it is in the gate's
trace). -/
theorem gate_abort (e : RecordEnv) (cid action : String) (tv : Option String)
    (s : List SnapChannel) (tr : List Eff)
    (h : get_user_approval e cid action tv s = (.abort, tr)) :
    e.decision = .abort ∧ Eff.prompt ∈ tr := by
  unfold get_user_approval at h
  revert h
  rcases hau : gateAuto e action tv s with ⟨og, tr2⟩
  have hne := (gateAuto_spec e action tv s).2
  rw [hau] at hne
  rcases og with _ | g <;>
    rcases hgi : e.gateInfo with (e2 | m) | i <;> simp only [hgi, hau]
  · rcases hd : e.decision <;> simp only [hd] <;> intro h
    · exact absurd (congrArg Prod.fst h) (by simp)
    · exact absurd (congrArg Prod.fst h) (by simp)
    · refine ⟨by simp [hd], ?_⟩
      have h2 := congrArg Prod.snd h
      simp only at h2
      rw [← h2]
      simp
  · intro h
    exact absurd (congrArg Prod.fst h) (by simp)
  · rcases hd : e.decision <;> simp only [hd] <;> intro h
    · exact absurd (congrArg Prod.fst h) (by simp)
    · exact absurd (congrArg Prod.fst h) (by simp)
    · refine ⟨by simp [hd], ?_⟩
      have h2 := congrArg Prod.snd h
      simp only at h2
      rw [← h2]
      simp
  · intro h
    have h1 := congrArg Prod.fst h
    simp only at h1
    exact absurd h1 ((hne g rfl).2)
  · intro h
    exact absurd (congrArg Prod.fst h) (by simp)
  · intro h
    have h1 := congrArg Prod.fst h
    simp only at h1
    exact absurd h1 ((hne g rfl).2)

/-- The live-execution part of an iteration never halts the batch: every
branch of `orchExec` continues (per-item failures never abort the run). -/
theorem orchExec_no_halt (e : RecordEnv) (st : OrchSt) (ch : Channel)
    (action : String) :
    ∃ s2 t2, orchExec e st ch action = (.cont s2, t2) := by
  unfold orchExec
  rcases e.verifyInfo with (e2 | m) | info
  · exact ⟨_, _, rfl⟩
  · exact ⟨_, _, rfl⟩
  · dsimp only
    by_cases h1 : info.is_archived
    · rw [if_pos h1]
      exact ⟨_, _, rfl⟩
    · rw [if_neg h1]
      by_cases h2 : info.name ≠ ch.name.getD ""
      · rw [if_pos h2]
        exact ⟨_, _, rfl⟩
      · rw [if_neg h2]
        rcases (execute_action e.act (ch.channel_id.getD "") (ch.name.getD "") action
          (some (ch.target_value.getD "")) none).1 with _ | r
        · exact ⟨_, _, rfl⟩
        · dsimp only
          by_cases h3 : r.success
          · rw [if_pos h3]
            exact ⟨_, _, rfl⟩
          · rw [if_neg h3]
            exact ⟨_, _, rfl⟩

/-- A halting iteration is exactly an operator abort at the prompt: the
state is returned unchanged, the operator's decision for this record was
abort, and the prompt was reached. -/
theorem orchStep_halt (dryRun : Bool) (snap : List SnapChannel) (e : RecordEnv)
    (st : OrchSt) (ch : Channel) (st2 : OrchSt) (tr : List Eff)
    (h : orchStep dryRun snap e st ch = (.halt st2, tr)) :
    st2 = st ∧ e.decision = .abort ∧ Eff.prompt ∈ tr := by
  unfold orchStep at h
  revert h
  by_cases hinv : invalidChannel ch
  · rw [if_pos hinv]
    intro h
    exact absurd (congrArg Prod.fst h) (by simp)
  · rw [if_neg hinv]
    dsimp only
    by_cases hk : pyLower (ch.action.getD "") = "" ∨ pyLower (ch.action.getD "") = "keep"
    · rw [if_pos hk]
      intro h
      exact absurd (congrArg Prod.fst h) (by simp)
    · rw [if_neg hk]
      by_cases hv : ¬ channelActionValues.contains (pyLower (ch.action.getD ""))
      · rw [if_pos hv]
        intro h
        exact absurd (congrArg Prod.fst h) (by simp)
      · rw [if_neg hv]
        rcases hgate : get_user_approval e (ch.channel_id.getD "")
          (pyLower (ch.action.getD "")) ch.target_value snap with ⟨g, tr2⟩
        rcases g with _ | _ | _ | m <;> simp only [hgate]
        · by_cases hdr : dryRun
          · rw [if_pos hdr]
            intro h
            exact absurd (congrArg Prod.fst h) (by simp)
          · rw [if_neg hdr]
            intro h
            obtain ⟨s2, t2, he⟩ := orchExec_no_halt e st ch (pyLower (ch.action.getD ""))
            rw [he] at h
            exact absurd (congrArg Prod.fst h) (by simp)
        · intro h
          exact absurd (congrArg Prod.fst h) (by simp)
        · intro h
          have h1 := congrArg Prod.fst h
          have h2 := congrArg Prod.snd h
          simp only at h1 h2
          obtain ⟨hd, hp⟩ := gate_abort e (ch.channel_id.getD "")
            (pyLower (ch.action.getD "")) ch.target_value snap tr2 hgate
          injection h1 with h1
          exact ⟨h1.symm, hd, h2 ▸ hp⟩
        · intro h
          exact absurd (congrArg Prod.fst h) (by simp)

/-- One-step unfolding of the orchestrator loop on a non-empty batch. -/
theorem orchList_cons (dryRun : Bool) (snap : List SnapChannel)
    (env : Nat → RecordEnv) (i : Nat) (st : OrchSt) (ch : Channel)
    (rest : List Channel) :
    orchList dryRun snap env i st (ch :: rest) =
      (match orchStep dryRun snap (env i) st ch with
       | (.halt st2, tr) => { st := st2, halted := true, trace := tr.map (Prod.mk i) }
       | (.cont st2, tr) =>
         { st := (orchList dryRun snap env (i + 1) st2 rest).st,
           halted := (orchList dryRun snap env (i + 1) st2 rest).halted,
           trace := tr.map (Prod.mk i) ++
             (orchList dryRun snap env (i + 1) st2 rest).trace }) := rfl

theorem orchList_append (dryRun : Bool) (snap : List SnapChannel)
    (env : Nat → RecordEnv) :
    ∀ (l1 l2 : List Channel) (i : Nat) (st : OrchSt),
      orchList dryRun snap env i st (l1 ++ l2) =
        (if (orchList dryRun snap env i st l1).halted then
          orchList dryRun snap env i st l1
         else
          { st := (orchList dryRun snap env (i + l1.length)
              (orchList dryRun snap env i st l1).st l2).st,
            halted := (orchList dryRun snap env (i + l1.length)
              (orchList dryRun snap env i st l1).st l2).halted,
            trace := (orchList dryRun snap env i st l1).trace ++
              (orchList dryRun snap env (i + l1.length)
                (orchList dryRun snap env i st l1).st l2).trace }) := by
  intro l1
  induction l1 with
  | nil =>
    intro l2 i st
    simp [orchList]
  | cons ch rest ih =>
    intro l2 i st
    rcases hs : orchStep dryRun snap (env i) st ch with ⟨res, tr⟩
    rcases res with st2 | st2
    · have hl : orchList dryRun snap env i st ((ch :: rest) ++ l2) =
          { st := (orchList dryRun snap env (i + 1) st2 (rest ++ l2)).st,
            halted := (orchList dryRun snap env (i + 1) st2 (rest ++ l2)).halted,
            trace := tr.map (Prod.mk i) ++
              (orchList dryRun snap env (i + 1) st2 (rest ++ l2)).trace } := by
        rw [List.cons_append, orchList_cons, hs]
      have hr : orchList dryRun snap env i st (ch :: rest) =
          { st := (orchList dryRun snap env (i + 1) st2 rest).st,
            halted := (orchList dryRun snap env (i + 1) st2 rest).halted,
            trace := tr.map (Prod.mk i) ++
              (orchList dryRun snap env (i + 1) st2 rest).trace } := by
        rw [orchList_cons, hs]
      rw [hl, hr, ih l2 (i + 1) st2,
        show i + 1 + rest.length = i + (ch :: rest).length from by simp; omega]
      by_cases hh : (orchList dryRun snap env (i + 1) st2 rest).halted
      · simp [hh]
      · simp [hh, List.append_assoc]
    · have hl : orchList dryRun snap env i st ((ch :: rest) ++ l2) =
          { st := st2, halted := true, trace := tr.map (Prod.mk i) } := by
        rw [List.cons_append, orchList_cons, hs]
      have hr : orchList dryRun snap env i st (ch :: rest) =
          { st := st2, halted := true, trace := tr.map (Prod.mk i) } := by
        rw [orchList_cons, hs]
      rw [hl, hr]
      simp

theorem orchList_trace_idx (dryRun : Bool) (snap : List SnapChannel)
    (env : Nat → RecordEnv) :
    ∀ (l : List Channel) (i : Nat) (st : OrchSt) (ie : Nat × Eff),
      ie ∈ (orchList dryRun snap env i st l).trace →
        i ≤ ie.1 ∧ ie.1 < i + l.length := by
  intro l
  induction l with
  | nil =>
    intro i st ie h
    exact absurd h (List.not_mem_nil ie)
  | cons ch rest ih =>
    intro i st ie h
    rw [List.length_cons]
    revert h
    unfold orchList
    rcases hs : orchStep dryRun snap (env i) st ch with ⟨res, tr⟩
    rcases res with st2 | st2 <;> simp only [hs] <;> intro h
    · rcases List.mem_append.mp h with h3 | h3
      · obtain ⟨eff, heff, rfl⟩ := List.mem_map.mp h3
        simp
      · have := ih (i + 1) st2 ie h3
        omega
    · obtain ⟨eff, heff, rfl⟩ := List.mem_map.mp h
      simp

/-- C6: if the operator answers abort at the prompt of the record at
position `k` of the sorted batch (the earlier records having run without
aborting), then the whole run returns exactly the state accumulated over
the earlier records — the aborting record and everything after it change no
count — the trace is the earlier records' trace plus this record's trace
(so no later record is prompted, verified or executed: every trace index is
at most `k`), and the summary is still produced with those counts. -/
theorem c6_abort_stops_batch (dryRun : Bool) (env : Nat → RecordEnv)
    (snap : List SnapChannel) (channels : List Channel)
    (pre rest : List Channel) (ch : Channel) (st2 : OrchSt) (tr : List Eff)
    (hsplit : pySorted channels = pre ++ ch :: rest)
    (hpre : (orchList dryRun snap env 0 {} pre).halted = false)
    (habort : orchStep dryRun snap (env pre.length)
      (orchList dryRun snap env 0 {} pre).st ch = (.halt st2, tr)) :
    (execute_channel_actions dryRun env snap channels).st =
      (orchList dryRun snap env 0 {} pre).st ∧
    st2 = (orchList dryRun snap env 0 {} pre).st ∧
    (env pre.length).decision = .abort ∧
    Eff.prompt ∈ tr ∧
    (execute_channel_actions dryRun env snap channels).trace =
      (orchList dryRun snap env 0 {} pre).trace ++ tr.map (Prod.mk pre.length) ∧
    (∀ ie ∈ (execute_channel_actions dryRun env snap channels).trace,
      ie.1 ≤ pre.length) := by
  obtain ⟨hst2, hdec, hprompt⟩ := orchStep_halt dryRun snap (env pre.length)
    (orchList dryRun snap env 0 {} pre).st ch st2 tr habort
  have hrun : execute_channel_actions dryRun env snap channels =
      { st := st2, halted := true,
        trace := (orchList dryRun snap env 0 {} pre).trace ++
          tr.map (Prod.mk pre.length) } := by
    unfold execute_channel_actions
    rw [hsplit, orchList_append dryRun snap env pre (ch :: rest) 0 {}, if_neg (by rw [hpre]; exact Bool.false_ne_true)]
    have hcons : orchList dryRun snap env (0 + pre.length)
        (orchList dryRun snap env 0 {} pre).st (ch :: rest) =
        { st := st2, halted := true, trace := tr.map (Prod.mk pre.length) } := by
      rw [orchList_cons, show (0 + pre.length) = pre.length from by omega, habort]
    rw [hcons]
  refine ⟨by rw [hrun, hst2], hst2, hdec, hprompt, by rw [hrun, hst2], ?_⟩
  intro ie hie
  rw [hrun] at hie
  rcases List.mem_append.mp hie with h3 | h3
  · have := orchList_trace_idx dryRun snap env pre 0 {} ie h3
    omega
  · obtain ⟨eff, heff, rfl⟩ := List.mem_map.mp h3
    simp

/-- A decision stream for the C6 witness: approve the first prompted item,
abort on the second. -/
def c6Env : Nat → RecordEnv := fun i =>
  { baseEnv with decision := if i = 0 then .approve else .abort }

/-- A five-record archive batch for the C6 witness. -/
def c6Batch : List Channel :=
  [{ channel_id := some "C1", name := some "a1", action := some "archive" },
   { channel_id := some "C2", name := some "a2", action := some "archive" },
   { channel_id := some "C3", name := some "a3", action := some "archive" },
   { channel_id := some "C4", name := some "a4", action := some "archive" },
   { channel_id := some "C5", name := some "a5", action := some "archive" }]

def c6Pre : List Channel :=
  [{ channel_id := some "C1", name := some "a1", action := some "archive" }]

def c6Ch : Channel :=
  { channel_id := some "C2", name := some "a2", action := some "archive" }

def c6Rest : List Channel :=
  [{ channel_id := some "C3", name := some "a3", action := some "archive" },
   { channel_id := some "C4", name := some "a4", action := some "archive" },
   { channel_id := some "C5", name := some "a5", action := some "archive" }]

theorem c6_abort_stops_batch_witness :
    (execute_channel_actions true c6Env [] c6Batch).st =
      (orchList true [] c6Env 0 {} c6Pre).st ∧
    ({ successful := 1 } : OrchSt) = (orchList true [] c6Env 0 {} c6Pre).st ∧
    (c6Env c6Pre.length).decision = .abort ∧
    Eff.prompt ∈ ([Eff.infoCall "C2", Eff.prompt] : List Eff) ∧
    (execute_channel_actions true c6Env [] c6Batch).trace =
      (orchList true [] c6Env 0 {} c6Pre).trace ++
        ([Eff.infoCall "C2", Eff.prompt] : List Eff).map (Prod.mk c6Pre.length) ∧
    (∀ ie ∈ (execute_channel_actions true c6Env [] c6Batch).trace,
      ie.1 ≤ c6Pre.length) :=
  c6_abort_stops_batch true c6Env [] c6Batch c6Pre c6Rest c6Ch
    { successful := 1 } [Eff.infoCall "C2", Eff.prompt]
    (by decide) (by decide) (by decide)

/-! ### Claim C10 -/

theorem char_toLower_of_not_upper (d : Char) (h : ¬(d.toNat ≥ 65 ∧ d.toNat ≤ 90)) :
    d.toLower = d := by
  unfold Char.toLower
  exact if_neg h

theorem char_toLower_idem (c : Char) : c.toLower.toLower = c.toLower := by
  by_cases h : c.toNat ≥ 65 ∧ c.toNat ≤ 90
  · have hv : (c.toNat + 32).isValidChar := Or.inl (by omega)
    have ht : (c.toLower).toNat = c.toNat + 32 := by
      unfold Char.toLower
      dsimp only
      rw [if_pos h]
      unfold Char.ofNat
      rw [dif_pos hv]
      rfl
    apply char_toLower_of_not_upper
    rw [ht]
    omega
  · rw [char_toLower_of_not_upper c h]
    exact char_toLower_of_not_upper c h

theorem pyLower_idem (s : String) : pyLower (pyLower s) = pyLower s := by
  unfold pyLower
  congr 1
  rw [show (String.mk (s.data.map Char.toLower)).data = s.data.map Char.toLower from rfl,
    List.map_map]
  exact List.map_congr_left (fun c _ => char_toLower_idem c)

theorem pyLower_eq_empty_iff (s : String) : pyLower s = "" ↔ s = "" := by
  cases s with
  | mk l =>
    constructor
    · intro h
      have h2 : l.map Char.toLower = [] := congrArg String.data h
      rw [List.map_eq_nil_iff] at h2
      rw [h2]
    · intro h
      have h2 : l = [] := congrArg String.data h
      rw [h2]
      rfl

/-- Lowercase a record's action string before the run (the transformation
of the claim). -/
def lowerChannelAction (ch : Channel) : Channel :=
  { ch with action := ch.action.map pyLower }

theorem action_priority_lower (ch : Channel) :
    action_priority (lowerChannelAction ch) = action_priority ch := by
  unfold action_priority lowerChannelAction
  rcases ha : ch.action with _ | a
  · rfl
  · dsimp only [Option.map, Option.getD]
    by_cases he : a = ""
    · subst he
      rfl
    · rw [if_neg (fun hc => he ((pyLower_eq_empty_iff a).mp hc)), if_neg he,
        pyLower_idem]

theorem pyInsert_map_lower (x : Channel) :
    ∀ l : List Channel,
      pyInsert (lowerChannelAction x) (l.map lowerChannelAction) =
        (pyInsert x l).map lowerChannelAction := by
  intro l
  induction l with
  | nil => rfl
  | cons y ys ih =>
    rw [List.map_cons]
    unfold pyInsert
    rw [action_priority_lower x, action_priority_lower y]
    by_cases h : action_priority x ≤ action_priority y
    · rw [if_pos h, if_pos h, List.map_cons, List.map_cons]
    · rw [if_neg h, if_neg h, List.map_cons, ih]

theorem pySorted_map_lower :
    ∀ l : List Channel,
      pySorted (l.map lowerChannelAction) = (pySorted l).map lowerChannelAction := by
  intro l
  induction l with
  | nil => rfl
  | cons x xs ih =>
    rw [List.map_cons]
    unfold pySorted
    rw [ih, pyInsert_map_lower]

theorem orchStep_lower (dryRun : Bool) (snap : List SnapChannel) (e : RecordEnv)
    (st : OrchSt) (ch : Channel) :
    orchStep dryRun snap e st (lowerChannelAction ch) = orchStep dryRun snap e st ch := by
  have hact : pyLower ((lowerChannelAction ch).action.getD "") =
      pyLower (ch.action.getD "") := by
    show pyLower ((ch.action.map pyLower).getD "") = pyLower (ch.action.getD "")
    rcases ha : ch.action with _ | a
    · rfl
    · dsimp only [Option.map, Option.getD]
      exact pyLower_idem a
  unfold orchStep
  rw [hact]
  rfl

theorem orchList_map_lower (dryRun : Bool) (snap : List SnapChannel)
    (env : Nat → RecordEnv) :
    ∀ (l : List Channel) (i : Nat) (st : OrchSt),
      orchList dryRun snap env i st (l.map lowerChannelAction) =
        orchList dryRun snap env i st l := by
  intro l
  induction l with
  | nil => intro i st; rfl
  | cons ch rest ih =>
    intro i st
    rw [List.map_cons, orchList_cons, orchList_cons, orchStep_lower]
    rcases hs : orchStep dryRun snap (env i) st ch with ⟨res, tr⟩
    rcases res with st2 | st2 <;> simp only [hs]
    rw [ih (i + 1) st2]

/-- C10: lowercasing every record's action string before running produces
the same run as the original batch: the sorted processing order corresponds
record-for-record (sorting commutes with the lowercasing), and the whole
run — dispatch trace, halt behaviour and all summary counts — is
identical, because the orchestrator lowercases action strings before every
comparison (e.g. a record with action "ARCHIVE" is sorted and executed
exactly like one with "archive"). -/
theorem c10_lowercase_invariant (dryRun : Bool) (env : Nat → RecordEnv)
    (snap : List SnapChannel) (channels : List Channel) :
    execute_channel_actions dryRun env snap (channels.map lowerChannelAction) =
      execute_channel_actions dryRun env snap channels ∧
    pySorted (channels.map lowerChannelAction) =
      (pySorted channels).map lowerChannelAction := by
  refine ⟨?_, pySorted_map_lower channels⟩
  unfold execute_channel_actions
  rw [pySorted_map_lower channels, orchList_map_lower]

end Curator


